import Mathlib

/-!
Shallow embedding of the burst decoding/re-encoding engine of the
`bas-apres` package (`apres/__init__.py`).  Header text is modelled as
lists of characters (`Str`), Python dicts as insertion-ordered
association lists, numpy arrays as a flat element list together with an
explicit shape, and fallible operations return `Except`/`Option`.
-/

/-- Header text: a Python string, modelled as its list of characters. -/
abbrev Str := List Char

/-- Convenience conversion from Lean string literals. -/
def chars (s : String) : Str := s.toList

/-- Python `str.lstrip()`: drop leading whitespace. -/
def lstrip (s : Str) : Str := s.dropWhile Char.isWhitespace

/-- Python `str.rstrip()`: drop trailing whitespace. -/
def rstrip (s : Str) : Str := ((s.reverse).dropWhile Char.isWhitespace).reverse

/-- Python `str.strip()`: drop whitespace on both sides. -/
def pyStrip (s : Str) : Str := lstrip (rstrip s)

/-- Split at the first occurrence of a (one-character) delimiter, as in
Python `s.split(delim, maxsplit=1)`: `none` when the delimiter does not
occur, otherwise the parts before and after its first occurrence. -/
def splitFirst (delim : Char) : Str → Option (Str × Str)
  | [] => none
  | c :: rest =>
    if c = delim then some ([], rest)
    else (splitFirst delim rest).map (fun p => (c :: p.1, p.2))

/-- Value of a list of decimal digit characters. -/
def digitsVal (ds : Str) : Nat := ds.foldl (fun a c => a * 10 + (c.toNat - 48)) 0

/-- Python `int(s)` on the plain decimal forms that occur in ApRES
headers: surrounding whitespace stripped, an optional sign, then a
nonempty run of ASCII digits; anything else raises `ValueError`,
modelled as `none`. -/
def parsePyInt (s : Str) : Option Int :=
  let t := pyStrip s
  match t with
  | '+' :: ds => if ds ≠ [] ∧ ds.all Char.isDigit then some (digitsVal ds) else none
  | '-' :: ds => if ds ≠ [] ∧ ds.all Char.isDigit then some (-(digitsVal ds : Int)) else none
  | ds => if ds ≠ [] ∧ ds.all Char.isDigit then some (digitsVal ds) else none

/-- The parsing tokens of `ApRESBurst.DEFAULTS` that
`determine_file_format_version` / `reset_init_defaults` overwrite from
the `ALTERNATIVES` table: the header line delimiter and the two
required data dimension keys. -/
structure Tokens where
  header_line_delim : Char
  data_dim_keys : List Str
deriving DecidableEq

/-- `ApRESBurst.ALTERNATIVES`: the two known file format generations. -/
def ALTERNATIVES : List Tokens :=
  [⟨'=', [chars "NSubBursts", chars "N_ADC_SAMPLES"]⟩,
   ⟨':', [chars "SubBursts in burst", chars "Samples"]⟩]

/-- The initial values of the mutable tokens in `ApRESBurst.DEFAULTS`
(the generation-2 profile, identical to `ALTERNATIVES[0]`). -/
def initTokens : Tokens := ⟨'=', [chars "NSubBursts", chars "N_ADC_SAMPLES"]⟩

/-- `DEFAULTS['data_type_key']`. -/
def DATA_TYPE_KEY : Str := chars "Average"

/-- `DEFAULTS['data_types']`. -/
def data_types : List Str := [chars "<u2", chars "<f4", chars "<u4"]

/-- `DEFAULTS['data_dim_optional_keys']`. -/
def data_dim_optional_keys : List Str := [chars "nAttenuators"]

/-- `DEFAULTS['header_line_eol']`. -/
def HEADER_EOL : Str := chars "\r\n"

/-- `DEFAULTS['header_markers']['start']`. -/
def HEADER_START_MARKER : Str := chars "\r\n*** Burst Header ***"

/-- `DEFAULTS['header_markers']['end']`. -/
def HEADER_END_MARKER : Str := chars "*** End Header ***"

/-- `DEFAULTS['end_of_header_re']` is the regex `\*\*\* End Header`,
anchored at the start of the line by `re.match`; the pattern is a
literal, so matching is a prefix test against this text. -/
def END_OF_HEADER_TEXT : Str := chars "*** End Header"

/-- Python dict assignment `d[k] = v` on an insertion-ordered
association list: an existing key keeps its position and gets the new
value, a fresh key is appended. -/
def dictSet (m : List (Str × Str)) (k v : Str) : List (Str × Str) :=
  if m.any (fun p => p.1 = k) then
    m.map (fun p => if p.1 = k then (p.1, v) else p)
  else
    m ++ [(k, v)]

/-- Python dict lookup `d[k]`: the value at the key, `none` for
`KeyError`. -/
def dictGet (m : List (Str × Str)) (k : Str) : Option Str :=
  (m.find? (fun p => p.1 = k)).map (fun p => p.2)

/-- One iteration of the `ApRESBurst.store_header` loop: split the
line at most once at the first occurrence of the dialect delimiter;
keep it only when the delimiter occurs (`len(item) > 1`) and the text
before it is nonempty (`item[0]` is truthy, checked before stripping);
key and value are then whitespace-stripped and stored in the header
dict. -/
def storeHeaderLine (delim : Char) (h : List (Str × Str)) (line : Str) : List (Str × Str) :=
  match splitFirst delim line with
  | some (pre, post) => if pre ≠ [] then dictSet h (pyStrip pre) (pyStrip post) else h
  | none => h

/-- `ApRESBurst.store_header`: fold the raw header lines into the
(initially empty) header dict. -/
def store_header (delim : Char) (header_lines : List Str) : List (Str × Str) :=
  header_lines.foldl (storeHeaderLine delim) []

example : store_header '=' [chars "Temp1=10.0469", chars "Temp2=10.1094"] =
    [(chars "Temp1", chars "10.0469"), (chars "Temp2", chars "10.1094")] := by decide

example : store_header '=' [chars "=12"] = [] := by decide

example : store_header '=' [chars " =12"] = [([], chars "12")] := by decide

example : store_header '=' [chars "  Temp1  =  10.0469  "] =
    [(chars "Temp1", chars "10.0469")] := by decide

example : store_header '=' [chars "Dummy=value=10"] =
    [(chars "Dummy", chars "value=10")] := by decide

example : parsePyInt (chars " 42 ") = some 42 := by decide

example : parsePyInt (chars "-7") = some (-7) := by decide

example : parsePyInt (chars "10.37") = none := by decide

example : parsePyInt (chars "") = none := by decide

/-- The Python exceptions raised by the burst engine, together with the
two distinct causes hiding behind the re-raised reshape `ValueError`. -/
inductive PyError
  /-- `KeyError`: required header key absent. -/
  | keyError (k : Str)
  /-- `ValueError` from `int()`: value not integer-parseable. -/
  | valueError (raw : Str)
  /-- `IndexError` from the `data_types` table lookup, carrying the
  parsed mode value (reported in the exception message). -/
  | indexError (mode : Int)
  /-- `ValueError` from `np.frombuffer`: buffer smaller than requested. -/
  | bufferError
  /-- re-raised reshape `ValueError`: data array shorter than declared. -/
  | truncatedData
  /-- re-raised reshape `ValueError`: data array longer than declared,
  with forgive mode off. -/
  | shapeMismatch
  /-- `ValueError` for an unsupported `flatten` option. -/
  | configError (flatten : Str)
  /-- `OSError` from seeking to the `-1` sentinel when no end-of-header
  marker was found. -/
  | osError
deriving DecidableEq

/-- `ApRESBurst.determine_file_format_version`: scan the header lines
in order; within a line, test the first data dimension key of each
`ALTERNATIVES` entry in table order (the keys contain no regex
metacharacters, so `re.match` is a prefix test); on the first match
install that entry's full token set into the shared defaults and stop;
otherwise leave the defaults unchanged. -/
def determine_file_format_version (header_lines : List Str) (d : Tokens) : Tokens :=
  match header_lines.findSome? (fun line =>
      (List.range ALTERNATIVES.length).findSome? (fun i =>
        if ((ALTERNATIVES.getD i d).data_dim_keys.getD 0 []).isPrefixOf line then
          some i
        else none)) with
  | some i => ALTERNATIVES.getD i d
  | none => d

example : determine_file_format_version [chars "NSubBursts=100"] initTokens = initTokens := by decide

example : determine_file_format_version [chars "SubBursts in burst: 100"] initTokens =
    ALTERNATIVES.getD 1 initTokens := by decide

example : determine_file_format_version [chars "Temp1=10"] initTokens = initTokens := by decide

/-- Python `s.lower()`. -/
def pyLower (s : Str) : Str := s.map Char.toLower

/-- Python `l.insert(1, x)`: insert immediately after the first
element (or at the front of an empty list). -/
def insertAt1 {α : Type} (l : List α) (x : α) : List α :=
  match l with
  | [] => [x]
  | a :: rest => a :: x :: rest

/-- `data_shape[1] *= m` (the shape always has at least two entries
here, one per required dimension key). -/
def mulAt1 (l : List Int) (m : Int) : List Int :=
  match l with
  | a :: b :: rest => a :: (b * m) :: rest
  | l => l

/-- `data_shape[0] = 1` (same remark). -/
def setAt0 (l : List Int) (x : Int) : List Int :=
  match l with
  | [] => []
  | _ :: rest => x :: rest

/-- The loop `for key in self.DEFAULTS['data_dim_keys']`: read and
integer-parse each required dimension value in key order; a missing key
raises `KeyError`, an unparseable value raises `ValueError`. -/
def readRequiredDims (header : List (Str × Str)) : List Str → Except PyError (List Int)
  | [] => .ok []
  | k :: ks =>
    match dictGet header k with
    | none => .error (.keyError k)
    | some v =>
      match parsePyInt v with
      | none => .error (.valueError v)
      | some n => (readRequiredDims header ks).map (fun ns => n :: ns)

/-- One iteration of the loop over `data_dim_optional_keys`, acting on
the accumulated `(data_dim_keys, data_shape, warnings)` state.  A
missing key (`KeyError`) is silently skipped; an unparseable value
(`ValueError`) records a warning and is skipped; otherwise the flatten
policy (already lowercased and validated) is applied. -/
def applyOptionalDim (fl : Str) (header : List (Str × Str))
    (st : List Str × List Int × List Str) (k : Str) : List Str × List Int × List Str :=
  match dictGet header k with
  | none => st
  | some v =>
    match parsePyInt v with
    | none => (st.1, st.2.1, st.2.2 ++ [k])
    | some m =>
      if fl = chars "always" then (st.1, mulAt1 st.2.1 m, st.2.2)
      else if fl = chars "unity" then
        if m > 1 then (insertAt1 st.1 k, insertAt1 st.2.1 m, st.2.2) else st
      else (insertAt1 st.1 k, insertAt1 st.2.1 m, st.2.2)

/-- `ApRESBurst.define_data_shape`: validate the flatten policy, read
the required dimensions, rewrite the first dimension to 1 when the
`Average` mode value is positive, then fold the optional dimension keys
through the flatten policy.  Returns the final
`(data_dim_keys, data_shape)` together with the warnings emitted for
unparseable optional dimension values. -/
def define_data_shape (d : Tokens) (header : List (Str × Str)) (flatten : Str) :
    Except PyError (List Str × List Int × List Str) :=
  let fl := pyLower flatten
  if fl ≠ chars "always" ∧ fl ≠ chars "unity" ∧ fl ≠ chars "never" then
    .error (.configError flatten)
  else
    match readRequiredDims header d.data_dim_keys with
    | .error e => .error e
    | .ok dims0 =>
      match dictGet header DATA_TYPE_KEY with
      | none => .error (.keyError DATA_TYPE_KEY)
      | some v =>
        match parsePyInt v with
        | none => .error (.valueError v)
        | some a =>
          let dims := if a > 0 then setAt0 dims0 1 else dims0
          .ok (data_dim_optional_keys.foldl (applyOptionalDim fl header)
                (d.data_dim_keys, dims, []))

/-- Python list subscripting `l[i]` on an `int` index: nonnegative
indexes from the front, negative indexes from the back, anything out of
range raises `IndexError` (`none`). -/
def pyListGetI {α : Type} (l : List α) (i : Int) : Option α :=
  if 0 ≤ i then l.get? i.toNat
  else if -(l.length : Int) ≤ i then l.get? (i + l.length).toNat
  else none

/-- `ApRESBurst.define_data_type`: parse the `Average` mode field and
subscript the `data_types` table with it; the `IndexError` handler
re-raises with the parsed mode value in the message. -/
def define_data_type (header : List (Str × Str)) : Except PyError Str :=
  match dictGet header DATA_TYPE_KEY with
  | none => .error (.keyError DATA_TYPE_KEY)
  | some v =>
    match parsePyInt v with
    | none => .error (.valueError v)
    | some m =>
      match pyListGetI data_types m with
      | some t => .ok t
      | none => .error (.indexError m)

deriving instance DecidableEq for Except

example : define_data_type [(chars "Average", chars "0")] = .ok (chars "<u2") := by decide

example : define_data_type [(chars "Average", chars "3")] = .error (.indexError 3) := by decide

example : define_data_type [(chars "Average", chars "-1")] = .ok (chars "<u4") := by decide

/-- `np.reshape(data, shape, order='C')` on a flat little-endian
element buffer and a concrete (nonnegative-dimension) target shape:
row-major reshaping preserves the flat element sequence, so the result
is modelled as the same flat list carrying the declared shape, and the
reshape succeeds exactly when the element count matches the shape
product. -/
def np_reshape {α : Type} (data : List α) (shape : List Int) : Option (List α) :=
  if (data.length : Int) = shape.prod then some data else none

/-- `ApRESBurst.reshape_data`: attempt the reshape; on a size mismatch,
a shorter-than-declared array always re-raises, a longer-than-declared
array is truncated to the first `expected_len` elements when forgive
mode is on and re-raises otherwise.  The boolean records whether the
forgiving truncation branch was taken. -/
def reshape_data {α : Type} (forgive : Bool) (data : List α) (shape : List Int) :
    Except PyError (List α × Bool) :=
  match np_reshape data shape with
  | some d => .ok (d, false)
  | none =>
    let expected := shape.prod
    if (data.length : Int) < expected then .error .truncatedData
    else if (data.length : Int) > expected then
      if forgive then
        match np_reshape (data.take expected.toNat) shape with
        | some d => .ok (d, true)
        | none => .error .shapeMismatch
      else .error .shapeMismatch
    else .ok (data, false)

/-- `np.dtype(t).itemsize` for the element types in the `data_types`
table. -/
def np_itemsize (t : Str) : Nat :=
  if t = chars "<u2" then 2
  else if t = chars "<f4" then 4
  else if t = chars "<u4" then 4
  else 1

/-- `np.frombuffer(buf, dtype, count)`: the `count` elements of the
buffer, each a run of `size` raw bytes. -/
def chunkN (count size : Nat) (buf : List UInt8) : List (List UInt8) :=
  (List.range count).map (fun i => (buf.drop (i * size)).take size)

/-- `ApRESBurst.read_data` after the header has been read: compute the
expected element count from the data shape, read exactly
`count * itemsize` bytes starting at `data_start` (the stream argument
is the byte suffix of the file from that offset), convert the buffer to
an element array — `np.frombuffer` raises when the buffer holds fewer
bytes than requested — and reshape it. -/
def read_data_core (stream : List UInt8) (shape : List Int) (dtype : Str) (forgive : Bool) :
    Except PyError (List (List UInt8) × Bool) :=
  let count := shape.prod.toNat
  let isize := np_itemsize dtype
  let buf := stream.take (count * isize)
  if buf.length < count * isize then .error .bufferError
  else reshape_data forgive (chunkN count isize buf) shape

/-- A Python `range(start, stop, step)` object (a constructed range
always has nonzero step). -/
structure PyRange where
  start : Int
  stop : Int
  step : Int
deriving DecidableEq

/-- Python `len(range(start, stop, step))`. -/
def rangeLen (r : PyRange) : Nat :=
  if r.step > 0 then ((r.stop - r.start + r.step - 1).fdiv r.step).toNat
  else if r.step < 0 then ((r.start - r.stop + (-r.step) - 1).fdiv (-r.step)).toNat
  else 0

example : rangeLen ⟨0, 10, 1⟩ = 10 := by decide

example : rangeLen ⟨0, 10, 3⟩ = 4 := by decide

example : rangeLen ⟨5, 5, 1⟩ = 0 := by decide

example : rangeLen ⟨9, -1, -2⟩ = 5 := by decide

/-- Python `str(n)` for the nonnegative integers produced by `len`. -/
def natStr (n : Nat) : Str := Nat.toDigits 10 n

/-- `ApRESBurst.format_header_line`: key, delimiter and value
concatenated with no added whitespace. -/
def format_header_line (d : Tokens) (k v : Str) : Str :=
  k ++ [d.header_line_delim] ++ v

/-- `ApRESBurst.reconstruct_header_lines`: one formatted line per
header entry in dict order, bracketed by the start and end markers. -/
def reconstruct_header_lines (d : Tokens) (header : List (Str × Str)) : List Str :=
  HEADER_START_MARKER :: header.map (fun p => format_header_line d p.1 p.2) ++ [HEADER_END_MARKER]

/-- The body of the `write_header` loop for one raw header line: when a
truthy (nonempty) subburst range is supplied and the line starts with
the subburst dimension key, the line is replaced by a freshly formatted
one carrying the range's length; then likewise for the sample range and
sample dimension key; the resulting line is terminated with the header
line terminator. -/
def write_header_line (d : Tokens) (sub samp : Option PyRange) (line : Str) : Str :=
  let key0 := d.data_dim_keys.getD 0 []
  let key1 := d.data_dim_keys.getD 1 []
  let line1 := match sub with
    | some r =>
      if rangeLen r ≠ 0 ∧ key0.isPrefixOf line then
        format_header_line d key0 (natStr (rangeLen r))
      else line
    | none => line
  let line2 := match samp with
    | some r =>
      if rangeLen r ≠ 0 ∧ key1.isPrefixOf line1 then
        format_header_line d key1 (natStr (rangeLen r))
      else line1
    | none => line1
  line2 ++ HEADER_EOL

/-- `ApRESBurst.write_header` (on an already-configured burst): the
processed header lines, in order. -/
def write_header_lines (d : Tokens) (header_lines : List Str) (sub samp : Option PyRange) :
    List Str :=
  header_lines.map (write_header_line d sub samp)

example : write_header_lines initTokens [chars "NSubBursts=100"] (some ⟨0, 10, 1⟩) none =
    [chars "NSubBursts=10\r\n"] := by decide

example : write_header_lines initTokens [chars "NSubBursts=100"] (some ⟨0, 0, 1⟩) none =
    [chars "NSubBursts=100\r\n"] := by decide

/-! ### Claim C1: reshape forgiveness -/

/-- C1: for a declared shape of product `P` and a data array of `A`
elements, `reshape_data` always raises on truncated data (`A < P`,
regardless of forgive mode); with `A > P` and forgive mode on it
succeeds, truncating to the first `P` elements in row-major order so
the result has exactly the declared shape; with `A > P` and forgive
mode off it raises; with `A == P` it succeeds silently. -/
theorem C1_reshape_forgiveness {α : Type} (data : List α) (shape : List Int)
    (hP : 0 ≤ shape.prod) :
    ((data.length : Int) < shape.prod →
        reshape_data true data shape = .error .truncatedData ∧
        reshape_data false data shape = .error .truncatedData) ∧
    ((data.length : Int) > shape.prod →
        reshape_data true data shape = .ok (data.take shape.prod.toNat, true) ∧
        (data.take shape.prod.toNat).length = shape.prod.toNat ∧
        reshape_data false data shape = .error .shapeMismatch) ∧
    ((data.length : Int) = shape.prod →
        ∀ forgive, reshape_data forgive data shape = .ok (data, false)) := by
  refine ⟨?_, ?_, ?_⟩
  · intro hlt
    have hout : np_reshape data shape = none := by
      unfold np_reshape
      rw [if_neg (by omega)]
    constructor <;>
      (unfold reshape_data; rw [hout]; dsimp only; rw [if_pos hlt])
  · intro hgt
    have hout : np_reshape data shape = none := by
      unfold np_reshape
      rw [if_neg (by omega)]
    have hnlt : ¬ ((data.length : Int) < shape.prod) := by omega
    have hlen : (data.take shape.prod.toNat).length = shape.prod.toNat := by
      rw [List.length_take]
      omega
    have hinner : np_reshape (data.take shape.prod.toNat) shape =
        some (data.take shape.prod.toNat) := by
      unfold np_reshape
      rw [if_pos (by rw [hlen]; omega)]
    refine ⟨?_, hlen, ?_⟩
    · unfold reshape_data
      rw [hout]
      dsimp only
      rw [if_neg hnlt, if_pos hgt, if_pos rfl, hinner]
    · unfold reshape_data
      rw [hout]
      dsimp only
      rw [if_neg hnlt, if_pos hgt, if_neg (by simp)]
  · intro heq forgive
    have hout : np_reshape data shape = some data := by
      unfold np_reshape
      rw [if_pos heq]
    unfold reshape_data
    rw [hout]

/-- C1 witness: the four regimes at concrete inputs. -/
theorem C1_reshape_forgiveness_witness :
    reshape_data true ([10, 20, 30] : List Nat) [2, 1] = .ok ([10, 20], true) ∧
    reshape_data false ([10, 20, 30] : List Nat) [2, 1] = .error .shapeMismatch ∧
    reshape_data true ([10] : List Nat) [2, 1] = .error .truncatedData ∧
    reshape_data true ([10, 20] : List Nat) [2, 1] = .ok ([10, 20], false) := by
  have h1 := (C1_reshape_forgiveness ([10, 20, 30] : List Nat) [2, 1] (by decide)).2.1
    (by decide)
  have h2 := (C1_reshape_forgiveness ([10] : List Nat) [2, 1] (by decide)).1 (by decide)
  have h3 := (C1_reshape_forgiveness ([10, 20] : List Nat) [2, 1] (by decide)).2.2
    (by decide) true
  refine ⟨?_, h1.2.2, h2.1, h3⟩
  rw [h1.1]
  decide

/-! ### Claim C3: mode to element type mapping -/

/-- C3 counterexample: the claim states that every parsed mode outside
`{0,1,2}` fails with the unsupported-mode error, but a header mode of
`-1` subscripts the `data_types` list from the back (Python negative
indexing) and silently succeeds with `<u4`. -/
theorem C3_counterexample_negative_mode :
    define_data_type [(chars "Average", chars "-1")] = .ok (chars "<u4") ∧
    define_data_type [(chars "Average", chars "-1")] ≠ .error (.indexError (-1)) := by
  decide

/-- C3 (amended): for a mode field that parses as integer `m`,
`define_data_type` fails with the unsupported-mode `IndexError`
(carrying the raw mode value) exactly when `m` is outside `-3..2`;
modes 0, 1, 2 yield the table entries `<u2`, `<f4`, `<u4` (16-bit
unsigned, 32-bit float, 32-bit unsigned), and modes -1, -2, -3 index
the same 3-entry table from the back. -/
theorem C3_define_data_type_amended (header : List (Str × Str)) (v : Str) (m : Int)
    (hv : dictGet header DATA_TYPE_KEY = some v) (hm : parsePyInt v = some m) :
    ((m > 2 ∨ m < -3) → define_data_type header = .error (.indexError m)) ∧
    (m = 0 → define_data_type header = .ok (chars "<u2")) ∧
    (m = 1 → define_data_type header = .ok (chars "<f4")) ∧
    (m = 2 → define_data_type header = .ok (chars "<u4")) ∧
    (m = -1 → define_data_type header = .ok (chars "<u4")) ∧
    (m = -2 → define_data_type header = .ok (chars "<f4")) ∧
    (m = -3 → define_data_type header = .ok (chars "<u2")) := by
  refine ⟨?_, ?_, ?_, ?_, ?_, ?_, ?_⟩ <;> intro hcase
  · have hnone : pyListGetI data_types m = none := by
      unfold pyListGetI
      rcases hcase with hgt | hlt
      · rw [if_pos (by omega)]
        rw [List.get?_eq_none]
        show data_types.length ≤ m.toNat
        have : data_types.length = 3 := by decide
        omega
      · rw [if_neg (by omega), if_neg ?_]
        have h3 : (data_types.length : Int) = 3 := by decide
        omega
    simp [define_data_type, hv, hm, hnone]
  all_goals subst hcase
  all_goals simp [define_data_type, hv, hm]
  all_goals decide

/-- C3 witness: the amended behaviour at concrete inputs. -/
theorem C3_define_data_type_amended_witness :
    define_data_type [(chars "Average", chars "3")] = .error (.indexError 3) ∧
    define_data_type [(chars "Average", chars "-4")] = .error (.indexError (-4)) ∧
    define_data_type [(chars "Average", chars "1")] = .ok (chars "<f4") := by
  refine ⟨?_, ?_, ?_⟩
  · exact (C3_define_data_type_amended [(chars "Average", chars "3")] (chars "3") 3
      (by decide) (by decide)).1 (by decide)
  · exact (C3_define_data_type_amended [(chars "Average", chars "-4")] (chars "-4") (-4)
      (by decide) (by decide)).1 (by decide)
  · exact (C3_define_data_type_amended [(chars "Average", chars "1")] (chars "1") 1
      (by decide) (by decide)).2.2.1 rfl

/-! ### Claim C4: store_header line handling -/

/-- `splitFirst` really splits at the first occurrence of the
delimiter: the line is the two parts joined by the delimiter and the
part before it is delimiter-free. -/
theorem splitFirst_sound {delim : Char} :
    ∀ {l pre post : Str}, splitFirst delim l = some (pre, post) →
      l = pre ++ delim :: post ∧ delim ∉ pre := by
  intro l
  induction l with
  | nil => intro pre post h; simp [splitFirst] at h
  | cons c rest ih =>
    intro pre post h
    unfold splitFirst at h
    by_cases hc : c = delim
    · rw [if_pos hc] at h
      simp only [Option.some.injEq, Prod.mk.injEq] at h
      rcases h with ⟨h1, h2⟩
      subst h1
      subst h2
      subst hc
      simp
    · rw [if_neg hc] at h
      rcases Option.map_eq_some'.mp h with ⟨⟨pre', post'⟩, hrec, heq⟩
      simp only [Prod.mk.injEq] at heq
      rcases heq with ⟨h1, h2⟩
      subst h1
      subst h2
      rcases ih hrec with ⟨hl, hnm⟩
      constructor
      · rw [hl]
        rfl
      · intro hmem
        rcases List.mem_cons.mp hmem with h1 | h2
        · exact hc h1.symm
        · exact hnm h2

/-- Membership after a Python dict assignment: an entry of the updated
dict is an entry of the old dict or the assigned pair. -/
theorem mem_dictSet {m : List (Str × Str)} {k v k' v' : Str}
    (h : (k, v) ∈ dictSet m k' v') : (k, v) ∈ m ∨ (k = k' ∧ v = v') := by
  unfold dictSet at h
  by_cases hc : m.any (fun p => p.1 = k')
  · rw [if_pos hc] at h
    rcases List.mem_map.mp h with ⟨p, hp, he⟩
    by_cases hk : p.1 = k'
    · rw [if_pos hk] at he
      right
      have h1 : p.1 = k ∧ v' = v := by
        simpa [Prod.ext_iff] using he
      exact ⟨h1.1.symm.trans hk, h1.2.symm⟩
    · rw [if_neg hk] at he
      left
      rw [← he]
      exact hp
  · rw [if_neg hc] at h
    rcases List.mem_append.mp h with h1 | h2
    · exact Or.inl h1
    · right
      have h3 := List.mem_singleton.mp h2
      simpa [Prod.ext_iff] using h3

/-- Every entry produced by the `store_header` fold comes from a
processed line that contains the delimiter and whose pre-delimiter text
is nonempty (before stripping), the key and value being the stripped
parts. -/
theorem store_foldl_mem_source (delim : Char) :
    ∀ (lines : List Str) (acc : List (Str × Str)) (k v : Str),
      (k, v) ∈ lines.foldl (storeHeaderLine delim) acc →
      (k, v) ∈ acc ∨
        ∃ l ∈ lines, ∃ pre post, l = pre ++ delim :: post ∧ delim ∉ pre ∧ pre ≠ [] ∧
          k = pyStrip pre ∧ v = pyStrip post := by
  intro lines
  induction lines with
  | nil => intro acc k v h; exact Or.inl h
  | cons l ls ih =>
    intro acc k v h
    rcases ih (storeHeaderLine delim acc l) k v h with h1 | h2
    · rcases hsp : splitFirst delim l with - | ⟨pre, post⟩
      · have hred : storeHeaderLine delim acc l = acc := by
          unfold storeHeaderLine
          rw [hsp]
        rw [hred] at h1
        exact Or.inl h1
      · have hred : storeHeaderLine delim acc l =
            if pre ≠ [] then dictSet acc (pyStrip pre) (pyStrip post) else acc := by
          unfold storeHeaderLine
          rw [hsp]
        rw [hred] at h1
        by_cases hpre : pre ≠ []
        · rw [if_pos hpre] at h1
          rcases mem_dictSet h1 with hm | hkv
          · exact Or.inl hm
          · right
            rcases splitFirst_sound hsp with ⟨hl, hnm⟩
            exact ⟨l, List.mem_cons_self l ls, pre, post, hl, hnm, hpre, hkv.1, hkv.2⟩
        · rw [if_neg hpre] at h1
          exact Or.inl h1
    · right
      rcases h2 with ⟨l', hl', rest⟩
      exact ⟨l', List.mem_cons_of_mem l hl', rest⟩

/-- C4 counterexample: the claim states that no entry under the
empty-string key can ever appear, even for lines whose pre-delimiter
text is only whitespace; but the truthiness check `item[0]` runs before
stripping, so the line `" =12"` is kept and stored under the
empty-string key. -/
theorem C4_counterexample_whitespace_key :
    store_header '=' [chars " =12"] = [([], chars "12")] ∧
    ([], chars "12") ∈ store_header '=' [chars " =12"] := by
  decide

/-- C4 (amended): `store_header` splits each line at most once at the
first occurrence of the dialect delimiter, trims whitespace from both
key and value, and drops every line that has no delimiter or whose
pre-delimiter text is empty before trimming; a line whose pre-delimiter
text is nonempty but all-whitespace survives the check and yields an
entry under the empty-string key. -/
theorem C4_store_header_amended (delim : Char) :
    (∀ (lines : List Str) (k v : Str),
      (k, v) ∈ store_header delim lines →
        ∃ l ∈ lines, ∃ pre post, l = pre ++ delim :: post ∧ delim ∉ pre ∧ pre ≠ [] ∧
          k = pyStrip pre ∧ v = pyStrip post) ∧
    (∀ (h : List (Str × Str)) (l : Str), splitFirst delim l = none →
        storeHeaderLine delim h l = h) ∧
    (∀ (h : List (Str × Str)) (post : Str),
        storeHeaderLine delim h (delim :: post) = h) := by
  refine ⟨?_, ?_, ?_⟩
  · intro lines k v h
    rcases store_foldl_mem_source delim lines [] k v h with h1 | h2
    · exact absurd h1 (List.not_mem_nil _)
    · exact h2
  · intro h l hnone
    unfold storeHeaderLine
    rw [hnone]
  · intro h post
    simp [storeHeaderLine, splitFirst]

/-- C4 witness: the characterization applied to the counterexample
line, recovering its whitespace-only pre-delimiter text. -/
theorem C4_store_header_amended_witness :
    ∃ l ∈ [chars " =12"], ∃ pre post, l = pre ++ '=' :: post ∧ '=' ∉ pre ∧ pre ≠ [] ∧
      [] = pyStrip pre ∧ chars "12" = pyStrip post :=
  (C4_store_header_amended '=').1 [chars " =12"] [] (chars "12") (by decide)

/-! ### Claims C5 and C6: data shape derivation -/

/-- Evaluation of `readRequiredDims` one key at a time. -/
theorem readRequiredDims_cons (header : List (Str × Str)) (k : Str) (ks : List Str)
    (v : Str) (n : Int) (hk : dictGet header k = some v) (hn : parsePyInt v = some n) :
    readRequiredDims header (k :: ks) = (readRequiredDims header ks).map (fun ns => n :: ns) := by
  conv_lhs => unfold readRequiredDims
  rw [hk]
  dsimp only
  rw [hn]

/-- Evaluation of `define_data_shape` under parseable required fields:
it reduces to the optional-dimension pass over the base shape, whose
first dimension is rewritten to 1 for a positive mode value. -/
theorem define_data_shape_eq (header : List (Str × Str)) (s0 s1 sa : Str) (d0 d1 a : Int)
    (fl : Str)
    (h0 : dictGet header (chars "NSubBursts") = some s0) (hp0 : parsePyInt s0 = some d0)
    (h1 : dictGet header (chars "N_ADC_SAMPLES") = some s1) (hp1 : parsePyInt s1 = some d1)
    (ha : dictGet header DATA_TYPE_KEY = some sa) (hpa : parsePyInt sa = some a)
    (hfl : pyLower fl = chars "always" ∨ pyLower fl = chars "unity" ∨ pyLower fl = chars "never") :
    define_data_shape initTokens header fl =
      .ok (applyOptionalDim (pyLower fl) header
            ([chars "NSubBursts", chars "N_ADC_SAMPLES"],
             [if a > 0 then 1 else d0, d1], [])
            (chars "nAttenuators")) := by
  have hreq : readRequiredDims header initTokens.data_dim_keys = .ok [d0, d1] := by
    show readRequiredDims header [chars "NSubBursts", chars "N_ADC_SAMPLES"] = _
    rw [readRequiredDims_cons header _ _ s0 d0 h0 hp0,
      readRequiredDims_cons header _ _ s1 d1 h1 hp1]
    rfl
  have hval : ¬ (pyLower fl ≠ chars "always" ∧ pyLower fl ≠ chars "unity" ∧
      pyLower fl ≠ chars "never") := by
    rcases hfl with h | h | h <;> simp [h]
  have hdims : (if a > 0 then setAt0 [d0, d1] 1 else [d0, d1]) =
      [if a > 0 then 1 else d0, d1] := by
    by_cases hA : a > 0 <;> simp [setAt0, hA]
  unfold define_data_shape
  rw [if_neg hval, hreq]
  dsimp only
  rw [ha]
  dsimp only
  rw [hpa]
  dsimp only
  rw [hdims]
  rfl

/-- C5: with an integer-parseable optional dimension value `m`, the
flatten policies behave as: `always` adds no axis and multiplies the
sample-count dimension by `m`; `unity` inserts a new axis of size `m`
immediately after the first dimension iff `m > 1` and otherwise leaves
the shape unchanged; `never` always inserts the new axis, including for
`m = 1`.  An absent optional key is silently ignored (no warning), and
a non-integer value is non-fatal: a warning is recorded and the
optional dimension is skipped. -/
theorem C5_optional_dimension_policies (header : List (Str × Str)) (s0 s1 sa : Str)
    (d0 d1 a : Int)
    (h0 : dictGet header (chars "NSubBursts") = some s0) (hp0 : parsePyInt s0 = some d0)
    (h1 : dictGet header (chars "N_ADC_SAMPLES") = some s1) (hp1 : parsePyInt s1 = some d1)
    (ha : dictGet header DATA_TYPE_KEY = some sa) (hpa : parsePyInt sa = some a) :
    (∀ v m, dictGet header (chars "nAttenuators") = some v → parsePyInt v = some m →
      define_data_shape initTokens header (chars "always") =
        .ok ([chars "NSubBursts", chars "N_ADC_SAMPLES"],
             [if a > 0 then 1 else d0, d1 * m], []) ∧
      (m > 1 → define_data_shape initTokens header (chars "unity") =
        .ok ([chars "NSubBursts", chars "nAttenuators", chars "N_ADC_SAMPLES"],
             [if a > 0 then 1 else d0, m, d1], [])) ∧
      (m ≤ 1 → define_data_shape initTokens header (chars "unity") =
        .ok ([chars "NSubBursts", chars "N_ADC_SAMPLES"],
             [if a > 0 then 1 else d0, d1], [])) ∧
      define_data_shape initTokens header (chars "never") =
        .ok ([chars "NSubBursts", chars "nAttenuators", chars "N_ADC_SAMPLES"],
             [if a > 0 then 1 else d0, m, d1], [])) ∧
    (dictGet header (chars "nAttenuators") = none →
      ∀ fl ∈ [chars "always", chars "unity", chars "never"],
        define_data_shape initTokens header fl =
          .ok ([chars "NSubBursts", chars "N_ADC_SAMPLES"],
               [if a > 0 then 1 else d0, d1], [])) ∧
    (∀ v, dictGet header (chars "nAttenuators") = some v → parsePyInt v = none →
      ∀ fl ∈ [chars "always", chars "unity", chars "never"],
        define_data_shape initTokens header fl =
          .ok ([chars "NSubBursts", chars "N_ADC_SAMPLES"],
               [if a > 0 then 1 else d0, d1], [chars "nAttenuators"])) := by
  have eAl : pyLower (chars "always") = chars "always" := by decide
  have eUn : pyLower (chars "unity") = chars "unity" := by decide
  have eNe : pyLower (chars "never") = chars "never" := by decide
  have neUA : ¬ (chars "unity" = chars "always") := by decide
  have neNA : ¬ (chars "never" = chars "always") := by decide
  have neNU : ¬ (chars "never" = chars "unity") := by decide
  refine ⟨?_, ?_, ?_⟩
  · intro v m hv hm
    refine ⟨?_, ?_, ?_, ?_⟩
    · rw [define_data_shape_eq header s0 s1 sa d0 d1 a _ h0 hp0 h1 hp1 ha hpa
        (Or.inl eAl), eAl]
      simp [applyOptionalDim, hv, hm, mulAt1]
    · intro hm1
      rw [define_data_shape_eq header s0 s1 sa d0 d1 a _ h0 hp0 h1 hp1 ha hpa
        (Or.inr (Or.inl eUn)), eUn]
      simp [applyOptionalDim, hv, hm, neUA, hm1, insertAt1]
    · intro hm1
      rw [define_data_shape_eq header s0 s1 sa d0 d1 a _ h0 hp0 h1 hp1 ha hpa
        (Or.inr (Or.inl eUn)), eUn]
      have hnm1 : ¬ (m > 1) := by omega
      simp [applyOptionalDim, hv, hm, neUA, hnm1]
    · rw [define_data_shape_eq header s0 s1 sa d0 d1 a _ h0 hp0 h1 hp1 ha hpa
        (Or.inr (Or.inr eNe)), eNe]
      simp [applyOptionalDim, hv, hm, neNA, neNU, insertAt1]
  · intro hnone fl hfl
    simp only [List.mem_cons, List.not_mem_nil, or_false] at hfl
    rcases hfl with h | h | h
    · subst h
      rw [define_data_shape_eq header s0 s1 sa d0 d1 a _ h0 hp0 h1 hp1 ha hpa
        (Or.inl eAl), eAl]
      simp [applyOptionalDim, hnone]
    · subst h
      rw [define_data_shape_eq header s0 s1 sa d0 d1 a _ h0 hp0 h1 hp1 ha hpa
        (Or.inr (Or.inl eUn)), eUn]
      simp [applyOptionalDim, hnone]
    · subst h
      rw [define_data_shape_eq header s0 s1 sa d0 d1 a _ h0 hp0 h1 hp1 ha hpa
        (Or.inr (Or.inr eNe)), eNe]
      simp [applyOptionalDim, hnone]
  · intro v hv hpv fl hfl
    simp only [List.mem_cons, List.not_mem_nil, or_false] at hfl
    rcases hfl with h | h | h
    · subst h
      rw [define_data_shape_eq header s0 s1 sa d0 d1 a _ h0 hp0 h1 hp1 ha hpa
        (Or.inl eAl), eAl]
      simp [applyOptionalDim, hv, hpv]
    · subst h
      rw [define_data_shape_eq header s0 s1 sa d0 d1 a _ h0 hp0 h1 hp1 ha hpa
        (Or.inr (Or.inl eUn)), eUn]
      simp [applyOptionalDim, hv, hpv]
    · subst h
      rw [define_data_shape_eq header s0 s1 sa d0 d1 a _ h0 hp0 h1 hp1 ha hpa
        (Or.inr (Or.inr eNe)), eNe]
      simp [applyOptionalDim, hv, hpv]

/-- C5 witness: the three policies on a header with `nAttenuators=2`,
the silently-ignored absent key, and the warned-and-skipped
non-integer value `nAttenuators=0.5`. -/
theorem C5_optional_dimension_policies_witness :
    define_data_shape initTokens
        [(chars "NSubBursts", chars "100"), (chars "N_ADC_SAMPLES", chars "40001"),
         (chars "Average", chars "0"), (chars "nAttenuators", chars "2")]
        (chars "always") =
      .ok ([chars "NSubBursts", chars "N_ADC_SAMPLES"], [100, 80002], []) ∧
    define_data_shape initTokens
        [(chars "NSubBursts", chars "100"), (chars "N_ADC_SAMPLES", chars "40001"),
         (chars "Average", chars "0"), (chars "nAttenuators", chars "2")]
        (chars "unity") =
      .ok ([chars "NSubBursts", chars "nAttenuators", chars "N_ADC_SAMPLES"],
           [100, 2, 40001], []) ∧
    define_data_shape initTokens
        [(chars "NSubBursts", chars "100"), (chars "N_ADC_SAMPLES", chars "40001"),
         (chars "Average", chars "0"), (chars "nAttenuators", chars "1")]
        (chars "never") =
      .ok ([chars "NSubBursts", chars "nAttenuators", chars "N_ADC_SAMPLES"],
           [100, 1, 40001], []) ∧
    define_data_shape initTokens
        [(chars "NSubBursts", chars "100"), (chars "N_ADC_SAMPLES", chars "40001"),
         (chars "Average", chars "0")]
        (chars "unity") =
      .ok ([chars "NSubBursts", chars "N_ADC_SAMPLES"], [100, 40001], []) ∧
    define_data_shape initTokens
        [(chars "NSubBursts", chars "100"), (chars "N_ADC_SAMPLES", chars "40001"),
         (chars "Average", chars "0"), (chars "nAttenuators", chars "0.5")]
        (chars "unity") =
      .ok ([chars "NSubBursts", chars "N_ADC_SAMPLES"], [100, 40001],
           [chars "nAttenuators"]) := by
  have hA := C5_optional_dimension_policies
    [(chars "NSubBursts", chars "100"), (chars "N_ADC_SAMPLES", chars "40001"),
     (chars "Average", chars "0"), (chars "nAttenuators", chars "2")]
    (chars "100") (chars "40001") (chars "0") 100 40001 0
    (by decide) (by decide) (by decide) (by decide) (by decide) (by decide)
  have hA2 := hA.1 (chars "2") 2 (by decide) (by decide)
  have hB := C5_optional_dimension_policies
    [(chars "NSubBursts", chars "100"), (chars "N_ADC_SAMPLES", chars "40001"),
     (chars "Average", chars "0"), (chars "nAttenuators", chars "1")]
    (chars "100") (chars "40001") (chars "0") 100 40001 0
    (by decide) (by decide) (by decide) (by decide) (by decide) (by decide)
  have hB2 := (hB.1 (chars "1") 1 (by decide) (by decide)).2.2.2
  have hC := C5_optional_dimension_policies
    [(chars "NSubBursts", chars "100"), (chars "N_ADC_SAMPLES", chars "40001"),
     (chars "Average", chars "0")]
    (chars "100") (chars "40001") (chars "0") 100 40001 0
    (by decide) (by decide) (by decide) (by decide) (by decide) (by decide)
  have hC2 := hC.2.1 (by decide) (chars "unity") (by simp)
  have hD := C5_optional_dimension_policies
    [(chars "NSubBursts", chars "100"), (chars "N_ADC_SAMPLES", chars "40001"),
     (chars "Average", chars "0"), (chars "nAttenuators", chars "0.5")]
    (chars "100") (chars "40001") (chars "0") 100 40001 0
    (by decide) (by decide) (by decide) (by decide) (by decide) (by decide)
  have hD2 := hD.2.2 (chars "0.5") (by decide) (by decide) (chars "unity") (by simp)
  refine ⟨?_, ?_, ?_, ?_, ?_⟩
  · rw [hA2.1]; decide
  · rw [hA2.2.1 (by decide)]; decide
  · rw [hB2]; decide
  · rw [hC2]; decide
  · rw [hD2]; decide

/-- C6: a mode field parsing to an integer greater than 0 forces the
first dimension to 1 regardless of the declared subburst count; mode 0
returns `(subburst_count, sample_count)` exactly as declared. -/
theorem C6_mode_forces_first_dim (header : List (Str × Str)) (s0 s1 sa : Str)
    (d0 d1 a : Int)
    (h0 : dictGet header (chars "NSubBursts") = some s0) (hp0 : parsePyInt s0 = some d0)
    (h1 : dictGet header (chars "N_ADC_SAMPLES") = some s1) (hp1 : parsePyInt s1 = some d1)
    (ha : dictGet header DATA_TYPE_KEY = some sa) (hpa : parsePyInt sa = some a)
    (hopt : dictGet header (chars "nAttenuators") = none) :
    (a > 0 → define_data_shape initTokens header (chars "unity") =
      .ok ([chars "NSubBursts", chars "N_ADC_SAMPLES"], [1, d1], [])) ∧
    (a = 0 → define_data_shape initTokens header (chars "unity") =
      .ok ([chars "NSubBursts", chars "N_ADC_SAMPLES"], [d0, d1], [])) := by
  have eUn : pyLower (chars "unity") = chars "unity" := by decide
  have hbase := define_data_shape_eq header s0 s1 sa d0 d1 a (chars "unity")
    h0 hp0 h1 hp1 ha hpa (Or.inr (Or.inl eUn))
  rw [eUn] at hbase
  constructor
  · intro hA
    rw [hbase]
    simp [applyOptionalDim, hopt, hA]
  · intro hA
    subst hA
    rw [hbase]
    simp [applyOptionalDim, hopt]

/-- C6 witness: modes 1 and 2 collapse the subburst axis, mode 0 keeps
the declared shape. -/
theorem C6_mode_forces_first_dim_witness :
    define_data_shape initTokens
        [(chars "NSubBursts", chars "100"), (chars "N_ADC_SAMPLES", chars "500"),
         (chars "Average", chars "1")] (chars "unity") =
      .ok ([chars "NSubBursts", chars "N_ADC_SAMPLES"], [1, 500], []) ∧
    define_data_shape initTokens
        [(chars "NSubBursts", chars "100"), (chars "N_ADC_SAMPLES", chars "500"),
         (chars "Average", chars "2")] (chars "unity") =
      .ok ([chars "NSubBursts", chars "N_ADC_SAMPLES"], [1, 500], []) ∧
    define_data_shape initTokens
        [(chars "NSubBursts", chars "100"), (chars "N_ADC_SAMPLES", chars "500"),
         (chars "Average", chars "0")] (chars "unity") =
      .ok ([chars "NSubBursts", chars "N_ADC_SAMPLES"], [100, 500], []) := by
  refine ⟨?_, ?_, ?_⟩
  · exact (C6_mode_forces_first_dim
      [(chars "NSubBursts", chars "100"), (chars "N_ADC_SAMPLES", chars "500"),
       (chars "Average", chars "1")]
      (chars "100") (chars "500") (chars "1") 100 500 1
      (by decide) (by decide) (by decide) (by decide) (by decide) (by decide)
      (by decide)).1 (by decide)
  · exact (C6_mode_forces_first_dim
      [(chars "NSubBursts", chars "100"), (chars "N_ADC_SAMPLES", chars "500"),
       (chars "Average", chars "2")]
      (chars "100") (chars "500") (chars "2") 100 500 2
      (by decide) (by decide) (by decide) (by decide) (by decide) (by decide)
      (by decide)).1 (by decide)
  · exact (C6_mode_forces_first_dim
      [(chars "NSubBursts", chars "100"), (chars "N_ADC_SAMPLES", chars "500"),
       (chars "Average", chars "0")]
      (chars "100") (chars "500") (chars "0") 100 500 0
      (by decide) (by decide) (by decide) (by decide) (by decide) (by decide)
      (by decide)).2 rfl

/-! ### Claim C7: dialect autodetection order -/

/-- The per-line candidate scan of `determine_file_format_version`:
candidate 0 (generation 2, `NSubBursts`) is tested before candidate 1
(generation 1, `SubBursts in burst`), and the scan yields the first
matching candidate index. -/
def dialectScan (l : Str) : Option Nat :=
  if (chars "NSubBursts").isPrefixOf l then some 0
  else if (chars "SubBursts in burst").isPrefixOf l then some 1 else none

theorem dialectScan_eq_none {l : Str} (h0 : ¬ (chars "NSubBursts").isPrefixOf l)
    (h1 : ¬ (chars "SubBursts in burst").isPrefixOf l) : dialectScan l = none := by
  unfold dialectScan
  rw [if_neg h0, if_neg h1]

theorem dialectScan_eq_zero {l : Str} (h0 : (chars "NSubBursts").isPrefixOf l) :
    dialectScan l = some 0 := by
  unfold dialectScan
  rw [if_pos h0]

theorem dialectScan_eq_one {l : Str} (h0 : ¬ (chars "NSubBursts").isPrefixOf l)
    (h1 : (chars "SubBursts in burst").isPrefixOf l) : dialectScan l = some 1 := by
  unfold dialectScan
  rw [if_neg h0, if_pos h1]

/-- The inner candidate loop agrees with `dialectScan`. -/
theorem innerFind_eval (d : Tokens) (l : Str) :
    (List.range ALTERNATIVES.length).findSome? (fun i =>
        if ((ALTERNATIVES.getD i d).data_dim_keys.getD 0 []).isPrefixOf l then some i
        else none) = dialectScan l := by
  have hr : List.range ALTERNATIVES.length = [0, 1] := rfl
  have h0 : (ALTERNATIVES.getD 0 d).data_dim_keys.getD 0 [] = chars "NSubBursts" := rfl
  have h1 : (ALTERNATIVES.getD 1 d).data_dim_keys.getD 0 [] =
      chars "SubBursts in burst" := rfl
  rw [hr]
  simp only [List.findSome?_cons, List.findSome?_nil, h0, h1]
  unfold dialectScan
  by_cases c0 : (chars "NSubBursts").isPrefixOf l
  · simp [c0]
  · by_cases c1 : (chars "SubBursts in burst").isPrefixOf l
    · simp [c0, c1]
    · simp [c0, c1]

/-- `determine_file_format_version` in terms of the per-line scan. -/
theorem determine_eval (lines : List Str) (d : Tokens) :
    determine_file_format_version lines d =
      match lines.findSome? dialectScan with
      | some i => ALTERNATIVES.getD i d
      | none => d := by
  unfold determine_file_format_version
  simp only [innerFind_eval]

/-- No line matching either candidate key leaves the tokens unchanged. -/
theorem determine_no_match (lines : List Str) (d : Tokens)
    (h : ∀ l ∈ lines, ¬ (chars "NSubBursts").isPrefixOf l ∧
        ¬ (chars "SubBursts in burst").isPrefixOf l) :
    determine_file_format_version lines d = d := by
  rw [determine_eval]
  have hn : lines.findSome? dialectScan = none := by
    rw [List.findSome?_eq_none_iff]
    intro l hl
    exact dialectScan_eq_none (h l hl).1 (h l hl).2
  rw [hn]

/-- The first line matching a candidate wins, with candidate 0 tested
first: a generation-2 match installs the generation-2 token set. -/
theorem determine_gen2_first (pre : List Str) (l : Str) (post : List Str) (d : Tokens)
    (hpre : ∀ l' ∈ pre, ¬ (chars "NSubBursts").isPrefixOf l' ∧
        ¬ (chars "SubBursts in burst").isPrefixOf l')
    (hl : (chars "NSubBursts").isPrefixOf l) :
    determine_file_format_version (pre ++ l :: post) d =
      ⟨'=', [chars "NSubBursts", chars "N_ADC_SAMPLES"]⟩ := by
  rw [determine_eval, List.findSome?_append]
  have hn : pre.findSome? dialectScan = none := by
    rw [List.findSome?_eq_none_iff]
    intro l' hl'
    exact dialectScan_eq_none (hpre l' hl').1 (hpre l' hl').2
  rw [hn, List.findSome?_cons, dialectScan_eq_zero hl]
  rfl

/-- A generation-1 match on a line not matching generation 2 installs
the generation-1 token set (delimiter and both dimension keys). -/
theorem determine_gen1_first (pre : List Str) (l : Str) (post : List Str) (d : Tokens)
    (hpre : ∀ l' ∈ pre, ¬ (chars "NSubBursts").isPrefixOf l' ∧
        ¬ (chars "SubBursts in burst").isPrefixOf l')
    (hn0 : ¬ (chars "NSubBursts").isPrefixOf l)
    (hl : (chars "SubBursts in burst").isPrefixOf l) :
    determine_file_format_version (pre ++ l :: post) d =
      ⟨':', [chars "SubBursts in burst", chars "Samples"]⟩ := by
  rw [determine_eval, List.findSome?_append]
  have hn : pre.findSome? dialectScan = none := by
    rw [List.findSome?_eq_none_iff]
    intro l' hl'
    exact dialectScan_eq_none (hpre l' hl').1 (hpre l' hl').2
  rw [hn, List.findSome?_cons, dialectScan_eq_one hn0 hl]
  rfl

/-- A header with no generation-1 match keeps the generation-2 tokens:
either nothing matches (tokens unchanged) or the first match is
candidate 0, whose token set equals the initial tokens. -/
theorem determine_no_gen1 (lines : List Str)
    (h : ∀ l ∈ lines, ¬ (chars "SubBursts in burst").isPrefixOf l) :
    determine_file_format_version lines initTokens = initTokens := by
  rw [determine_eval]
  rcases hf : lines.findSome? dialectScan with - | i
  · rfl
  · rcases List.exists_of_findSome?_eq_some hf with ⟨l, hl, hfl⟩
    by_cases c0 : (chars "NSubBursts").isPrefixOf l
    · rw [dialectScan_eq_zero c0] at hfl
      have h0 : i = 0 := by
        simpa using hfl.symm
      subst h0
      rfl
    · rw [dialectScan_eq_none c0 (h l hl)] at hfl
      cases hfl

/-- C7: dialect autodetection scans lines in order and, within each
line, tests the first dimension-key token of each candidate in
candidate order (generation 2 before generation 1); the first match
installs that candidate's full token set (delimiter and dimension
keys) and stops; if no line matches any candidate, the previously
active tokens remain in force unchanged. -/
theorem C7_dialect_first_match :
    (∀ (lines : List Str) (d : Tokens),
      (∀ l ∈ lines, ¬ (chars "NSubBursts").isPrefixOf l ∧
          ¬ (chars "SubBursts in burst").isPrefixOf l) →
        determine_file_format_version lines d = d) ∧
    (∀ (pre : List Str) (l : Str) (post : List Str) (d : Tokens),
      (∀ l' ∈ pre, ¬ (chars "NSubBursts").isPrefixOf l' ∧
          ¬ (chars "SubBursts in burst").isPrefixOf l') →
        (chars "NSubBursts").isPrefixOf l →
        determine_file_format_version (pre ++ l :: post) d =
          ⟨'=', [chars "NSubBursts", chars "N_ADC_SAMPLES"]⟩) ∧
    (∀ (pre : List Str) (l : Str) (post : List Str) (d : Tokens),
      (∀ l' ∈ pre, ¬ (chars "NSubBursts").isPrefixOf l' ∧
          ¬ (chars "SubBursts in burst").isPrefixOf l') →
        ¬ (chars "NSubBursts").isPrefixOf l →
        (chars "SubBursts in burst").isPrefixOf l →
        determine_file_format_version (pre ++ l :: post) d =
          ⟨':', [chars "SubBursts in burst", chars "Samples"]⟩) :=
  ⟨determine_no_match, determine_gen2_first, determine_gen1_first⟩

/-- C7 witness: a generation-1 header line after a non-matching line
switches the tokens; a header with no matching line leaves them. -/
theorem C7_dialect_first_match_witness :
    determine_file_format_version [chars "Temp1=10", chars "SubBursts in burst: 5"]
        initTokens = ⟨':', [chars "SubBursts in burst", chars "Samples"]⟩ ∧
    determine_file_format_version [chars "Temp1=10"] initTokens = initTokens ∧
    determine_file_format_version [chars "NSubBursts=100", chars "SubBursts in burst: 5"]
        initTokens = ⟨'=', [chars "NSubBursts", chars "N_ADC_SAMPLES"]⟩ := by
  refine ⟨?_, ?_, ?_⟩
  · exact C7_dialect_first_match.2.2 [chars "Temp1=10"] (chars "SubBursts in burst: 5") []
      initTokens (by decide) (by decide) (by decide)
  · exact C7_dialect_first_match.1 [chars "Temp1=10"] initTokens (by decide)
  · exact C7_dialect_first_match.2.1 [] (chars "NSubBursts=100")
      [chars "SubBursts in burst: 5"] initTokens (by decide) (by decide)

/-! ### Claim C8: header rewriting under subsetting -/

/-- C8 counterexample: the claim requires every supplied subsetting
range to rewrite the matching dimension line with the number of
selected elements, but a supplied empty range (selecting 0 elements) is
falsy in the `if subbursts and ...` guard, so the original line is
written unchanged instead of `NSubBursts=0`. -/
theorem C8_counterexample_empty_range :
    write_header_lines initTokens [chars "NSubBursts=100"] (some ⟨0, 0, 1⟩) none =
      [chars "NSubBursts=100\r\n"] ∧
    rangeLen ⟨0, 0, 1⟩ = 0 ∧
    format_header_line initTokens (chars "NSubBursts") (natStr (rangeLen ⟨0, 0, 1⟩)) ++
        HEADER_EOL = chars "NSubBursts=0\r\n" ∧
    write_header_lines initTokens [chars "NSubBursts=100"] (some ⟨0, 0, 1⟩) none ≠
      [chars "NSubBursts=0\r\n"] := by
  decide

/-- C8 (amended): for every supplied non-empty range, `write_header`
replaces each header line that textually begins with the corresponding
dimension-key token by a freshly formatted key/delimiter/value line
whose value is the number of elements the range selects, writes every
other line through unchanged, and terminates every written line with
the dialect line terminator; a supplied empty range is falsy and
behaves exactly as an absent range (no replacement). -/
theorem C8_write_header_amended (d : Tokens) (line : Str) :
    (∀ (samp : Option PyRange) (r : PyRange), rangeLen r ≠ 0 →
      (d.data_dim_keys.getD 0 []).isPrefixOf line →
      ¬ (d.data_dim_keys.getD 1 []).isPrefixOf
          (format_header_line d (d.data_dim_keys.getD 0 []) (natStr (rangeLen r))) →
      write_header_line d (some r) samp line =
        format_header_line d (d.data_dim_keys.getD 0 []) (natStr (rangeLen r)) ++
          HEADER_EOL) ∧
    (∀ (sub : Option PyRange) (r : PyRange), rangeLen r ≠ 0 →
      (∀ r0, sub = some r0 → rangeLen r0 = 0 ∨
          ¬ (d.data_dim_keys.getD 0 []).isPrefixOf line) →
      (d.data_dim_keys.getD 1 []).isPrefixOf line →
      write_header_line d sub (some r) line =
        format_header_line d (d.data_dim_keys.getD 1 []) (natStr (rangeLen r)) ++
          HEADER_EOL) ∧
    (∀ sub samp, ¬ (d.data_dim_keys.getD 0 []).isPrefixOf line →
      ¬ (d.data_dim_keys.getD 1 []).isPrefixOf line →
      write_header_line d sub samp line = line ++ HEADER_EOL) ∧
    (∀ r r', rangeLen r = 0 → rangeLen r' = 0 →
      write_header_line d (some r) (some r') line = write_header_line d none none line) ∧
    (∀ sub samp, ∃ body, write_header_line d sub samp line = body ++ HEADER_EOL) := by
  refine ⟨?_, ?_, ?_, ?_, ?_⟩
  · intro samp r h2 h3 hsafe
    have hinner : (if rangeLen r ≠ 0 ∧ (d.data_dim_keys.getD 0 []).isPrefixOf line then
        format_header_line d (d.data_dim_keys.getD 0 []) (natStr (rangeLen r)) else line) =
        format_header_line d (d.data_dim_keys.getD 0 []) (natStr (rangeLen r)) :=
      if_pos ⟨h2, h3⟩
    cases samp with
    | none =>
      simp only [write_header_line]
      rw [hinner]
    | some r' =>
      have houter : ¬ (rangeLen r' ≠ 0 ∧ (d.data_dim_keys.getD 1 []).isPrefixOf
          (format_header_line d (d.data_dim_keys.getD 0 []) (natStr (rangeLen r)))) :=
        fun hc => hsafe hc.2
      simp only [write_header_line]
      rw [hinner, if_neg houter]
  · intro sub r h2 hno h3
    cases sub with
    | none =>
      simp only [write_header_line]
      rw [if_pos ⟨h2, h3⟩]
    | some r0 =>
      have hc1 : ¬ (rangeLen r0 ≠ 0 ∧ (d.data_dim_keys.getD 0 []).isPrefixOf line) := by
        rcases hno r0 rfl with h | h
        · exact fun hc => hc.1 h
        · exact fun hc => h hc.2
      have hinner : (if rangeLen r0 ≠ 0 ∧ (d.data_dim_keys.getD 0 []).isPrefixOf line then
          format_header_line d (d.data_dim_keys.getD 0 []) (natStr (rangeLen r0)) else line) =
          line := if_neg hc1
      simp only [write_header_line]
      rw [hinner, if_pos ⟨h2, h3⟩]
  · intro sub samp hn0 hn1
    cases sub with
    | none =>
      cases samp with
      | none => rfl
      | some r =>
        have houter : ¬ (rangeLen r ≠ 0 ∧ (d.data_dim_keys.getD 1 []).isPrefixOf line) :=
          fun hc => hn1 hc.2
        simp only [write_header_line]
        rw [if_neg houter]
    | some r0 =>
      have hinner : (if rangeLen r0 ≠ 0 ∧ (d.data_dim_keys.getD 0 []).isPrefixOf line then
          format_header_line d (d.data_dim_keys.getD 0 []) (natStr (rangeLen r0)) else line) =
          line := if_neg (fun hc => hn0 hc.2)
      cases samp with
      | none =>
        simp only [write_header_line]
        rw [hinner]
      | some r =>
        have houter : ¬ (rangeLen r ≠ 0 ∧ (d.data_dim_keys.getD 1 []).isPrefixOf line) :=
          fun hc => hn1 hc.2
        simp only [write_header_line]
        rw [hinner, if_neg houter]
  · intro r r' hr hr'
    have hinner : (if rangeLen r ≠ 0 ∧ (d.data_dim_keys.getD 0 []).isPrefixOf line then
        format_header_line d (d.data_dim_keys.getD 0 []) (natStr (rangeLen r)) else line) =
        line := if_neg (fun hc => hc.1 hr)
    have houter : ¬ (rangeLen r' ≠ 0 ∧ (d.data_dim_keys.getD 1 []).isPrefixOf line) :=
      fun hc => hc.1 hr'
    simp only [write_header_line]
    rw [hinner, if_neg houter]
  · intro sub samp
    exact ⟨_, rfl⟩

/-- C8 witness: a non-empty range rewrites the matching line with the
selected element count; an empty pair of ranges acts as no ranges. -/
theorem C8_write_header_amended_witness :
    write_header_line initTokens (some ⟨0, 10, 1⟩) none (chars "NSubBursts=100") =
      chars "NSubBursts=10\r\n" ∧
    write_header_line initTokens none (some ⟨0, 7, 2⟩) (chars "N_ADC_SAMPLES=500") =
      chars "N_ADC_SAMPLES=4\r\n" ∧
    write_header_line initTokens (some ⟨0, 10, 1⟩) (some ⟨0, 7, 2⟩) (chars "Temp1=10") =
      chars "Temp1=10\r\n" ∧
    write_header_line initTokens (some ⟨0, 0, 1⟩) (some ⟨3, 3, 1⟩) (chars "NSubBursts=100") =
      write_header_line initTokens none none (chars "NSubBursts=100") := by
  have h := C8_write_header_amended initTokens (chars "NSubBursts=100")
  have h2 := C8_write_header_amended initTokens (chars "N_ADC_SAMPLES=500")
  have h3 := C8_write_header_amended initTokens (chars "Temp1=10")
  refine ⟨?_, ?_, ?_, ?_⟩
  · rw [h.1 none ⟨0, 10, 1⟩ (by decide) (by decide) (by decide)]
    decide
  · rw [h2.2.1 none ⟨0, 7, 2⟩ (by decide) (by simp) (by decide)]
    decide
  · rw [h3.2.2.1 (some ⟨0, 10, 1⟩) (some ⟨0, 7, 2⟩) (by decide) (by decide)]
    decide
  · exact h.2.2.2.1 ⟨0, 0, 1⟩ ⟨3, 3, 1⟩ (by decide) (by decide)

/-! ### Claim C9: class-level DEFAULTS are shared process state -/

/-- The mutable parsing state of a process using `ApRESBurst`:
`DEFAULTS` is a class attribute, so the dictionary holding the parsing
tokens is one shared object; every burst instance reads it through
`self.DEFAULTS`, and `determine_file_format_version` writes into it. -/
structure ProcState where
  DEFAULTS : Tokens
  bursts : List (List Str)

/-- Burst `i` resolving its dialect: `determine_file_format_version`
assigns the matched alternative's tokens into the shared class-level
`DEFAULTS` dictionary. -/
def resolve_burst (st : ProcState) (i : Nat) : ProcState :=
  { st with DEFAULTS := determine_file_format_version (st.bursts.getD i []) st.DEFAULTS }

/-- The header line delimiter burst `j` would parse with: every
instance reads the one shared `DEFAULTS['header_line_delim']`. -/
def burst_delim (st : ProcState) (_j : Nat) : Char := st.DEFAULTS.header_line_delim

/-- The dimension keys burst `j` would parse with, likewise shared. -/
def burst_dim_keys (st : ProcState) (_j : Nat) : List Str := st.DEFAULTS.data_dim_keys

/-- `ApRESBurst.reset_init_defaults`: copy the `ALTERNATIVES[0]` tokens
back into the shared `DEFAULTS`. -/
def reset_init_defaults (st : ProcState) : ProcState :=
  { st with DEFAULTS := ALTERNATIVES.getD 0 st.DEFAULTS }

/-- C9: dialect resolution is not per-burst state.  Resolving one
burst whose header is generation 1 overwrites the shared class-level
tokens, so the delimiter and dimension keys used by every other burst
`j` change from the generation-2 defaults to the generation-1 set,
until `reset_init_defaults` (or another resolution) overwrites them
again. -/
theorem C9_defaults_shared_across_bursts (st : ProcState) (i : Nat)
    (hinit : st.DEFAULTS = initTokens)
    (pre : List Str) (l : Str) (post : List Str)
    (hsplit : st.bursts.getD i [] = pre ++ l :: post)
    (hpre : ∀ l' ∈ pre, ¬ (chars "NSubBursts").isPrefixOf l' ∧
        ¬ (chars "SubBursts in burst").isPrefixOf l')
    (hn0 : ¬ (chars "NSubBursts").isPrefixOf l)
    (hl : (chars "SubBursts in burst").isPrefixOf l) :
    ∀ j, burst_delim st j = '=' ∧
      burst_delim (resolve_burst st i) j = ':' ∧
      burst_dim_keys (resolve_burst st i) j = [chars "SubBursts in burst", chars "Samples"] ∧
      burst_delim (reset_init_defaults (resolve_burst st i)) j = '=' ∧
      burst_dim_keys (reset_init_defaults (resolve_burst st i)) j =
        [chars "NSubBursts", chars "N_ADC_SAMPLES"] := by
  intro j
  have hres : determine_file_format_version (st.bursts.getD i []) st.DEFAULTS =
      ⟨':', [chars "SubBursts in burst", chars "Samples"]⟩ := by
    rw [hsplit]
    exact determine_gen1_first pre l post st.DEFAULTS hpre hn0 hl
  refine ⟨?_, ?_, ?_, ?_, ?_⟩
  · rw [burst_delim, hinit]
    rfl
  · rw [burst_delim, resolve_burst, hres]
  · rw [burst_dim_keys, resolve_burst, hres]
  · rw [burst_delim, reset_init_defaults]
    rfl
  · rw [burst_dim_keys, reset_init_defaults]
    rfl

/-- C9 witness: a two-burst process in which resolving burst 0's
generation-1 dialect changes the delimiter burst 1 parses with. -/
theorem C9_defaults_shared_across_bursts_witness :
    burst_delim ⟨initTokens, [[chars "SubBursts in burst: 20"], [chars "NSubBursts=100"]]⟩
        1 = '=' ∧
    burst_delim (resolve_burst
        ⟨initTokens, [[chars "SubBursts in burst: 20"], [chars "NSubBursts=100"]]⟩ 0) 1 =
      ':' ∧
    burst_delim (reset_init_defaults (resolve_burst
        ⟨initTokens, [[chars "SubBursts in burst: 20"], [chars "NSubBursts=100"]]⟩ 0)) 1 =
      '=' := by
  have h := C9_defaults_shared_across_bursts
    ⟨initTokens, [[chars "SubBursts in burst: 20"], [chars "NSubBursts=100"]]⟩ 0
    rfl [] (chars "SubBursts in burst: 20") [] (by decide) (by decide) (by decide)
    (by decide) 1
  exact ⟨h.1, h.2.1, h.2.2.2.1⟩

/-! ### Claim C10: read_data reads exactly the declared payload -/

/-- C10: `read_data` computes the expected element count from the
derived data shape and reads exactly `count * itemsize` bytes from the
data start, so its result does not depend on the forgive setting and a
successful read yields exactly `product(data_shape)` elements with the
forgiving truncation branch of `reshape_data` never taken; a payload
shorter than declared fails at the buffer-to-array conversion
(`np.frombuffer`), before reshape validation runs. -/
theorem C10_read_data_exact (stream : List UInt8) (shape : List Int) (dtype : Str) :
    (∀ forgive, read_data_core stream shape dtype forgive =
        read_data_core stream shape dtype true) ∧
    (∀ forgive elems flag, read_data_core stream shape dtype forgive = .ok (elems, flag) →
        elems.length = shape.prod.toNat ∧ flag = false) ∧
    (stream.length < shape.prod.toNat * np_itemsize dtype →
        ∀ forgive, read_data_core stream shape dtype forgive = .error .bufferError) := by
  have hchunklen : ∀ (count size : Nat) (buf : List UInt8),
      (chunkN count size buf).length = count := by
    intro count size buf
    rw [chunkN, List.length_map, List.length_range]
  by_cases hshort : stream.length < shape.prod.toNat * np_itemsize dtype
  · have herr : ∀ forgive, read_data_core stream shape dtype forgive =
        .error .bufferError := by
      intro forgive
      unfold read_data_core
      rw [if_pos]
      rw [List.length_take]
      omega
    refine ⟨?_, ?_, ?_⟩
    · intro forgive
      rw [herr forgive, herr true]
    · intro forgive elems flag h
      rw [herr forgive] at h
      cases h
    · intro _ forgive
      exact herr forgive
  · have hbuflen : (stream.take (shape.prod.toNat * np_itemsize dtype)).length =
        shape.prod.toNat * np_itemsize dtype := by
      rw [List.length_take]
      omega
    have hnotlt : ¬ ((stream.take (shape.prod.toNat * np_itemsize dtype)).length <
        shape.prod.toNat * np_itemsize dtype) := by
      rw [hbuflen]
      omega
    have hred : ∀ forgive, read_data_core stream shape dtype forgive =
        reshape_data forgive
          (chunkN shape.prod.toNat (np_itemsize dtype)
            (stream.take (shape.prod.toNat * np_itemsize dtype))) shape := by
      intro forgive
      unfold read_data_core
      rw [if_neg hnotlt]
    by_cases hsgn : 0 ≤ shape.prod
    · have hok : ∀ forgive, reshape_data forgive
          (chunkN shape.prod.toNat (np_itemsize dtype)
            (stream.take (shape.prod.toNat * np_itemsize dtype))) shape =
          .ok (chunkN shape.prod.toNat (np_itemsize dtype)
            (stream.take (shape.prod.toNat * np_itemsize dtype)), false) := by
        intro forgive
        have hsome : np_reshape (chunkN shape.prod.toNat (np_itemsize dtype)
            (stream.take (shape.prod.toNat * np_itemsize dtype))) shape =
            some (chunkN shape.prod.toNat (np_itemsize dtype)
              (stream.take (shape.prod.toNat * np_itemsize dtype))) := by
          unfold np_reshape
          rw [if_pos]
          rw [hchunklen]
          omega
        unfold reshape_data
        rw [hsome]
      refine ⟨?_, ?_, ?_⟩
      · intro forgive
        rw [hred forgive, hred true, hok forgive, hok true]
      · intro forgive elems flag h
        rw [hred forgive, hok forgive] at h
        have h' : chunkN shape.prod.toNat (np_itemsize dtype)
            (stream.take (shape.prod.toNat * np_itemsize dtype)) = elems ∧
            false = flag := by
          simpa [Prod.ext_iff] using h
        rw [← h'.1, ← h'.2]
        exact ⟨hchunklen _ _ _, rfl⟩
      · intro hc
        omega
    · have hneg : shape.prod < 0 := by omega
      have hcount : shape.prod.toNat = 0 := by omega
      have herr2 : ∀ forgive, reshape_data forgive
          (chunkN shape.prod.toNat (np_itemsize dtype)
            (stream.take (shape.prod.toNat * np_itemsize dtype))) shape =
          .error .shapeMismatch := by
        intro forgive
        have hlen0 : ((chunkN shape.prod.toNat (np_itemsize dtype)
            (stream.take (shape.prod.toNat * np_itemsize dtype))).length : Int) = 0 := by
          rw [hchunklen, hcount]
          rfl
        have hnone : np_reshape (chunkN shape.prod.toNat (np_itemsize dtype)
            (stream.take (shape.prod.toNat * np_itemsize dtype))) shape = none := by
          unfold np_reshape
          rw [if_neg]
          omega
        have hnone2 : np_reshape ((chunkN shape.prod.toNat (np_itemsize dtype)
            (stream.take (shape.prod.toNat * np_itemsize dtype))).take
              shape.prod.toNat) shape = none := by
          unfold np_reshape
          rw [if_neg]
          rw [List.length_take, hchunklen, hcount]
          omega
        unfold reshape_data
        rw [hnone]
        dsimp only
        rw [if_neg (by omega), if_pos (by omega)]
        cases forgive with
        | false => rw [if_neg (by simp)]
        | true =>
          rw [if_pos rfl, hnone2]
      refine ⟨?_, ?_, ?_⟩
      · intro forgive
        rw [hred forgive, hred true, herr2 forgive, herr2 true]
      · intro forgive elems flag h
        rw [hred forgive, herr2 forgive] at h
        cases h
      · intro hc
        omega

/-- C10 witness: a successful read yields exactly the declared element
count with no forgiveness, and a short payload fails at buffer
conversion. -/
theorem C10_read_data_exact_witness :
    (([[0, 1], [2, 3]] : List (List UInt8)).length = ([1, 2] : List Int).prod.toNat ∧
      false = false) ∧
    read_data_core [0, 1, 2] [1, 2] (chars "<u2") false = .error .bufferError := by
  constructor
  · exact (C10_read_data_exact [0, 1, 2, 3] [1, 2] (chars "<u2")).2.1 true
      [[0, 1], [2, 3]] false (by decide)
  · exact (C10_read_data_exact [0, 1, 2] [1, 2] (chars "<u2")).2.2 (by decide) false

/-! ### Claim C2: container round trip for generation-2 files

The mixed text/binary stream is modelled structurally: the header
region as its sequence of physical lines (each line carrying its
terminator, as `fp.readline` would deliver it) and the byte stream from
`data_start` as a byte list.  Header text maps to file bytes through
the Latin-1 encoding, under which a character is exactly one byte. -/

/-- `ApRESBurst.read_header_lines` on the physical lines from
`header_start`: append the rstripped first line, then, while the last
raw line is nonempty and does not match the end-of-header pattern, read
and append further rstripped lines; the boolean records whether the
end-of-header marker was found (`data_start` was set).  An exhausted
stream delivers `""` (EOF), which is appended and ends the loop. -/
def read_header_lines_from : List Str → List Str × Bool
  | [] => ([[]], false)
  | l :: rest =>
    if l = [] then ([rstrip l], false)
    else if END_OF_HEADER_TEXT.isPrefixOf l then ([rstrip l], true)
    else
      let p := read_header_lines_from rest
      (rstrip l :: p.1, p.2)

/-- The decoded state of one `ApRESBurst`.  `data_start` keeps only the
sentinel information (`-1` = not located, `0` = located / supplied);
the byte stream from the data start is passed around explicitly. -/
structure Burst where
  data_start : Int
  header_lines : List Str
  header : List (Str × Str)
  data_dim_keys : List Str
  data_shape : List Int
  data_type : Str
  data : List (List UInt8)

/-- `ApRESBurst.configure_from_header`: autodetection is enabled in
`DEFAULTS`, so resolve the dialect from the raw header lines (updating
the shared tokens), parse the header dict, and derive the data shape
(default `unity` flatten policy) and data type. -/
def configure_from_header (d : Tokens) (b : Burst) : Except PyError (Tokens × Burst) :=
  let d2 := determine_file_format_version b.header_lines d
  let hdr := store_header d2.header_line_delim b.header_lines
  match define_data_shape d2 hdr (chars "unity") with
  | .error e => .error e
  | .ok (keys, shape, _warn) =>
    match define_data_type hdr with
    | .error e => .error e
    | .ok t =>
      .ok (d2, { b with header := hdr, data_dim_keys := keys, data_shape := shape,
                        data_type := t })

/-- `ApRESBurst.read_header`: tokenize the header lines, then configure
the burst from them. -/
def read_header_model (d : Tokens) (phys : List Str) : Except PyError (Tokens × Burst) :=
  let p := read_header_lines_from phys
  configure_from_header d
    { data_start := if p.2 then 0 else -1, header_lines := p.1, header := [],
      data_dim_keys := [], data_shape := [], data_type := chars "<u2", data := [] }

/-- `ApRESBurst.read_data` driven from `ApRESFile.read_burst`: the
header is read first (fresh burst, `data_start = -1`), then exactly
`count * itemsize` bytes are read from the data start (`stream` is the
byte suffix of the file from that offset) and reshaped.  A burst whose
header had no end marker would seek to the `-1` sentinel and fail. -/
def read_burst_model (d : Tokens) (phys : List Str) (stream : List UInt8) (forgive : Bool) :
    Except PyError (Tokens × Burst) :=
  match read_header_model d phys with
  | .error e => .error e
  | .ok (d2, b) =>
    if b.data_start = -1 then .error .osError
    else
      match read_data_core stream b.data_shape b.data_type forgive with
      | .error e => .error e
      | .ok (elems, _) => .ok (d2, { b with data := elems })

/-- A netCDF group (or dataset) as far as the bridge reads and writes
it: named text attributes in creation order, one dimension per shape
axis, and one typed data variable.  (The fixed `units`/`long_name`
attributes of the variable are set but never read back.) -/
structure NcGroup where
  attrs : List (Str × Str)
  dim_keys : List Str
  dims : List Int
  var_type : Str
  var_data : List (List UInt8)

/-- `ApRESFile.burst_to_nc_object`: write the burst header items as
attributes in dict order, the shape as dimensions, and the data as the
typed variable. -/
def burst_to_nc_object (b : Burst) : NcGroup :=
  { attrs := b.header, dim_keys := b.data_dim_keys, dims := b.data_shape,
    var_type := b.data_type, var_data := b.data }

/-- `del attrs['history']` guarded by `except KeyError: pass`: remove
the provenance attribute when present, in place, keeping the order of
the other attributes. -/
def pyDictDelHistory (attrs : List (Str × Str)) : List (Str × Str) :=
  if attrs.any (fun p => p.1 = chars "history") then
    attrs.eraseP (fun p => p.1 = chars "history")
  else attrs

/-- `ApRESFile.nc_object_to_burst`: copy the variable's data and the
group attributes, drop the `history` attribute, mark `data_start` as
already satisfied (0), resolve the dialect by iterating the attribute
dict as if it were header lines (iteration yields the keys),
reconstruct canonical raw header lines with the resolved tokens, and
re-run configuration from them. -/
def nc_object_to_burst (d : Tokens) (nco : NcGroup) : Except PyError (Tokens × Burst) :=
  let data := nco.var_data
  let attrs := pyDictDelHistory nco.attrs
  let d2 := determine_file_format_version (attrs.map (fun p => p.1)) d
  let lines := reconstruct_header_lines d2 attrs
  configure_from_header d2
    { data_start := 0, header_lines := lines, header := attrs, data_dim_keys := [],
      data_shape := [], data_type := chars "<u2", data := data }

/-- Latin-1 encoding of header text: one byte per character. -/
def latin1 (s : Str) : List UInt8 := s.map (fun c => UInt8.ofNat c.toNat)

/-- numpy basic slicing `l[start:stop:step]` along an axis of length
`n`, for the nonnegative bounds and positive step produced by the range
objects the writer uses: the selected indices in order.  (Negative
bounds/steps do not occur on this code path.) -/
def pySliceIdxs (start stop step : Int) (n : Nat) : List Nat :=
  (List.range n).filter (fun i =>
    decide (start ≤ (i : Int)) && decide ((i : Int) < stop) &&
      decide (((i : Int) - start) % step = 0))

/-- `ApRESBurst.write_data` (on an already-read burst): default absent
or falsy (empty) ranges to the full axis ranges, select the subbursts
and samples from the row-major 2-D array, and write the raw bytes of
the selected elements in row-major order. -/
def write_data_bytes (b : Burst) (sub samp : Option PyRange) : List UInt8 :=
  let r0 := match sub with
    | some r => if rangeLen r ≠ 0 then r else ⟨0, b.data_shape.getD 0 0, 1⟩
    | none => ⟨0, b.data_shape.getD 0 0, 1⟩
  let r1 := match samp with
    | some r => if rangeLen r ≠ 0 then r else ⟨0, b.data_shape.getD 1 0, 1⟩
    | none => ⟨0, b.data_shape.getD 1 0, 1⟩
  let d0 := (b.data_shape.getD 0 0).toNat
  let d1 := (b.data_shape.getD 1 0).toNat
  let is := pySliceIdxs r0.start r0.stop r0.step d0
  let js := pySliceIdxs r1.start r1.stop r1.step d1
  (is.flatMap (fun i => js.map (fun j => b.data.getD (i * d1 + j) []))).flatten

/-- One burst of `ApRESFile.to_apres_dat` (on an already-read burst):
`write_header` followed by `write_data`, as file bytes. -/
def burst_to_dat_bytes (d : Tokens) (b : Burst) (sub samp : Option PyRange) : List UInt8 :=
  latin1 (write_header_lines d b.header_lines sub samp).flatten ++
    write_data_bytes b sub samp

/-- A generation-2 burst record in canonical on-disk form: the
key/value pairs of its header content lines and its raw payload
bytes. -/
structure Gen2Burst where
  pairs : List (Str × Str)
  payload : List UInt8

/-- A generation-2 content line: `key=value`. -/
def pairLine (p : Str × Str) : Str := p.1 ++ '=' :: p.2

/-- The physical header lines of a generation-2 burst as `readline`
delivers them: the start marker (whose leading `\r\n` makes the first
physical line a bare terminator), one content line per pair, and the
end marker, each CRLF-terminated. -/
def gen2PhysLines (g : Gen2Burst) : List Str :=
  chars "\r\n" :: (chars "*** Burst Header ***" ++ HEADER_EOL) ::
    (g.pairs.map (fun p => pairLine p ++ HEADER_EOL) ++ [HEADER_END_MARKER ++ HEADER_EOL])

/-- The header region text of a generation-2 burst. -/
def gen2HeaderText (g : Gen2Burst) : Str := (gen2PhysLines g).flatten

/-- The on-disk bytes of a generation-2 burst: Latin-1 header text
followed by the raw payload. -/
def gen2Bytes (g : Gen2Burst) : List UInt8 := latin1 (gen2HeaderText g) ++ g.payload

/-- Well-formedness of one header pair of a generation-2 burst: the key
is nonempty, both key and value are whitespace-trimmed and free of
line terminators, the key contains no delimiter, and neither the
content line nor the key alone can be mistaken for the end-of-header
marker or the generation-1 dimension key. -/
def WFPair (p : Str × Str) : Prop :=
  p.1 ≠ [] ∧ lstrip p.1 = p.1 ∧ rstrip p.1 = p.1 ∧ lstrip p.2 = p.2 ∧ rstrip p.2 = p.2 ∧
  '=' ∉ p.1 ∧ '\r' ∉ p.1 ∧ '\n' ∉ p.1 ∧ '\r' ∉ p.2 ∧ '\n' ∉ p.2 ∧
  ¬ END_OF_HEADER_TEXT.isPrefixOf (pairLine p) ∧
  ¬ (chars "SubBursts in burst").isPrefixOf (pairLine p) ∧
  ¬ (chars "SubBursts in burst").isPrefixOf p.1

instance (p : Str × Str) : Decidable (WFPair p) := by
  unfold WFPair
  infer_instance

/-- Well-formedness of a generation-2 burst with respect to the parsed
required fields: subburst count `d0`, sample count `d1` and mode `a`
(with their raw header texts), no optional dimension key, no duplicate
or provenance keys, and a payload of exactly the declared byte
length. -/
def WF (g : Gen2Burst) (s0 s1 sa : Str) (d0 d1 a : Int) : Prop :=
  (∀ p ∈ g.pairs, WFPair p) ∧
  (g.pairs.map (fun p => p.1)).Nodup ∧
  (chars "history") ∉ g.pairs.map (fun p => p.1) ∧
  dictGet g.pairs (chars "nAttenuators") = none ∧
  dictGet g.pairs (chars "NSubBursts") = some s0 ∧ parsePyInt s0 = some d0 ∧ 0 ≤ d0 ∧
  dictGet g.pairs (chars "N_ADC_SAMPLES") = some s1 ∧ parsePyInt s1 = some d1 ∧ 0 ≤ d1 ∧
  dictGet g.pairs DATA_TYPE_KEY = some sa ∧ parsePyInt sa = some a ∧
  (a = 0 ∨ a = 1 ∨ a = 2) ∧
  g.payload.length =
    ((if a > 0 then 1 else d0) * d1).toNat * np_itemsize (data_types.getD a.toNat [])

instance (g : Gen2Burst) (s0 s1 sa : Str) (d0 d1 a : Int) :
    Decidable (WF g s0 s1 sa d0 d1 a) := by
  unfold WF
  infer_instance

/-- The container round trip for one burst: decode the native burst
(the stream argument is the file bytes from its data start, i.e. its
payload followed by any later bursts), map it to a netCDF object, read
it back (with an optional synthetic `history` attribute appended, as a
provenance-carrying container would present), and re-encode it as
native bytes. -/
def container_roundtrip (d : Tokens) (phys : List Str) (stream : List UInt8)
    (hist : Option Str) (forgive : Bool) : Except PyError (Tokens × List UInt8) :=
  match read_burst_model d phys stream forgive with
  | .error e => .error e
  | .ok (d2, b) =>
    let nco := burst_to_nc_object b
    let nco2 : NcGroup := { nco with attrs := nco.attrs ++
      (match hist with | some h => [(chars "history", h)] | none => []) }
    match nc_object_to_burst d2 nco2 with
    | .error e => .error e
    | .ok (d3, b2) => .ok (d3, burst_to_dat_bytes d3 b2 none none)

/-- The container round trip over a whole multi-burst file: bursts are
decoded in stream order (each burst's data start is followed by the
remaining bursts' bytes), converted one group per burst, recovered, and
re-encoded in order. -/
def file_container_roundtrip (d : Tokens) (hist : Option Str) (forgive : Bool) :
    List Gen2Burst → Except PyError (Tokens × List UInt8)
  | [] => .ok (d, [])
  | g :: gs =>
    match container_roundtrip d (gen2PhysLines g)
        (g.payload ++ (gs.map gen2Bytes).flatten) hist forgive with
    | .error e => .error e
    | .ok (d2, bytes) =>
      match file_container_roundtrip d2 hist forgive gs with
      | .error e => .error e
      | .ok (d3, rest) => .ok (d3, bytes ++ rest)

/-! #### String lemmas for the round trip -/

/-- A list that `dropWhile` leaves whole starts with a non-matching
element, so appending anything keeps `dropWhile` inert. -/
theorem dropWhile_append_eq_self {p : Char → Bool} {l : Str}
    (h : l.dropWhile p = l) (hne : l ≠ []) (u : Str) :
    (l ++ u).dropWhile p = l ++ u := by
  cases l with
  | nil => exact absurd rfl hne
  | cons c cs =>
    have hc : p c = false := by
      rw [List.dropWhile_cons] at h
      by_cases hpc : p c
      · rw [if_pos hpc] at h
        have hlen := congrArg List.length h
        have hle : (cs.dropWhile p).length ≤ cs.length := (List.dropWhile_sublist p).length_le
        simp at hlen
        omega
      · simpa using hpc
    simp [List.cons_append, List.dropWhile_cons, hc]

/-- `rstrip` is inert on `u ++ v` when it is inert on a nonempty
`v`. -/
theorem rstrip_eq_self_append {v : Str} (hv : rstrip v = v) (hne : v ≠ []) (u : Str) :
    rstrip (u ++ v) = u ++ v := by
  unfold rstrip at hv ⊢
  have hv' : v.reverse.dropWhile Char.isWhitespace = v.reverse := by
    have h2 := congrArg List.reverse hv
    rwa [List.reverse_reverse] at h2
  rw [List.reverse_append]
  rw [dropWhile_append_eq_self hv' (by simpa using hne) u.reverse]
  rw [List.reverse_append, List.reverse_reverse, List.reverse_reverse]

/-- A content line `key=value` with a trimmed value has no trailing
whitespace. -/
theorem rstrip_pairLine {p : Str × Str} (hv : rstrip p.2 = p.2) :
    rstrip (pairLine p) = pairLine p := by
  have hw : rstrip ('=' :: p.2) = '=' :: p.2 := by
    cases hp2 : p.2 with
    | nil => decide
    | cons c cs =>
      rw [← hp2]
      have h2 : rstrip p.2 = p.2 := hv
      exact rstrip_eq_self_append h2 (by rw [hp2]; exact List.cons_ne_nil c cs) ['=']
  exact rstrip_eq_self_append hw (List.cons_ne_nil '=' p.2) p.1

/-- `rstrip` removes exactly a trailing CRLF from a line without
trailing whitespace. -/
theorem rstrip_append_eol {line : Str} (h : rstrip line = line) :
    rstrip (line ++ HEADER_EOL) = line := by
  unfold rstrip at h ⊢
  have h' : line.reverse.dropWhile Char.isWhitespace = line.reverse := by
    have h2 := congrArg List.reverse h
    rwa [List.reverse_reverse] at h2
  rw [List.reverse_append]
  rw [show HEADER_EOL.reverse = '\n' :: ['\r'] from rfl]
  rw [show ('\n' :: ['\r']) ++ line.reverse = '\n' :: '\r' :: line.reverse from rfl]
  rw [List.dropWhile_cons, if_pos (by decide), List.dropWhile_cons, if_pos (by decide)]
  rw [h']
  exact List.reverse_reverse line

/-- A carriage-return-free text that is not a prefix of a line is not a
prefix of the CRLF-terminated line either. -/
theorem isPrefixOf_append_eol_false :
    ∀ (t l : Str), '\r' ∉ t → ¬ t.isPrefixOf l → ¬ t.isPrefixOf (l ++ HEADER_EOL) := by
  intro t
  induction t with
  | nil =>
    intro l hcr h
    exact absurd List.isPrefixOf_nil_left h
  | cons c ts ih =>
    intro l hcr h hpre
    cases l with
    | nil =>
      simp only [List.nil_append] at hpre
      rw [show HEADER_EOL = '\r' :: ['\n'] from rfl] at hpre
      simp only [List.isPrefixOf, Bool.and_eq_true, beq_iff_eq] at hpre
      exact hcr (hpre.1 ▸ List.mem_cons_self c ts)
    | cons b l' =>
      simp only [List.cons_append, List.isPrefixOf, Bool.and_eq_true, beq_iff_eq] at hpre h
      have hn : ¬ ts.isPrefixOf l' = true := fun hts => h ⟨hpre.1, hts⟩
      exact ih l' (fun hm => hcr (List.mem_cons_of_mem c hm)) hn hpre.2

/-- `splitFirst` on a content line whose key is delimiter-free yields
exactly the key and value. -/
theorem splitFirst_key_val : ∀ (k v : Str), '=' ∉ k →
    splitFirst '=' (k ++ '=' :: v) = some (k, v) := by
  intro k
  induction k with
  | nil =>
    intro v _
    simp [splitFirst]
  | cons c ks ih =>
    intro v hk
    have hc : ¬ (c = '=') := fun he => hk (he ▸ List.mem_cons_self c ks)
    rw [show (c :: ks) ++ '=' :: v = c :: (ks ++ '=' :: v) from rfl]
    unfold splitFirst
    rw [if_neg hc, ih v (fun hm => hk (List.mem_cons_of_mem c hm))]
    rfl

/-- A line without the delimiter contributes nothing to the header. -/
theorem storeHeaderLine_none {delim : Char} {l : Str} (h : splitFirst delim l = none)
    (acc : List (Str × Str)) : storeHeaderLine delim acc l = acc := by
  unfold storeHeaderLine
  rw [h]

/-- Assigning a fresh key appends the pair. -/
theorem dictSet_fresh {m : List (Str × Str)} {k : Str} (v : Str)
    (h : ∀ p ∈ m, p.1 ≠ k) : dictSet m k v = m ++ [(k, v)] := by
  unfold dictSet
  rw [if_neg]
  simp only [List.any_eq_true, not_exists, not_and]
  intro p hp
  simpa using h p hp

/-! #### Decode-side lemmas -/

/-- Tokenizing the physical header lines of a well-formed generation-2
burst: the leading bare terminator reads as an empty line, the start
marker and content lines are passed through rstripped, and the end
marker line stops the scan with the data start located. -/
theorem read_header_lines_gen2 (g : Gen2Burst) (hp : ∀ p ∈ g.pairs, WFPair p) :
    read_header_lines_from (gen2PhysLines g) =
      ([] :: chars "*** Burst Header ***" ::
        (g.pairs.map pairLine ++ [HEADER_END_MARKER]), true) := by
  have hmid : ∀ ps : List (Str × Str), (∀ p ∈ ps, WFPair p) →
      read_header_lines_from (ps.map (fun p => pairLine p ++ HEADER_EOL) ++
        [HEADER_END_MARKER ++ HEADER_EOL]) =
      (ps.map pairLine ++ [HEADER_END_MARKER], true) := by
    intro ps
    induction ps with
    | nil =>
      intro _
      simp only [List.map_nil, List.nil_append]
      unfold read_header_lines_from
      rw [if_neg (by decide), if_pos (by decide)]
      rw [show rstrip (HEADER_END_MARKER ++ HEADER_EOL) = HEADER_END_MARKER from by decide]
    | cons p ps ih =>
      intro hps
      obtain ⟨hkne, hkl, hkr, hvl, hvr, hkeq, hkcr, hkn, hvcr, hvn, hnend, hg1, hg1k⟩ :=
        hps p (List.mem_cons_self p ps)
      have hlne : ¬ (pairLine p ++ HEADER_EOL = []) := by
        simp [pairLine]
      have hnoend : ¬ END_OF_HEADER_TEXT.isPrefixOf (pairLine p ++ HEADER_EOL) :=
        isPrefixOf_append_eol_false END_OF_HEADER_TEXT (pairLine p) (by decide) hnend
      have hstrip : rstrip (pairLine p ++ HEADER_EOL) = pairLine p :=
        rstrip_append_eol (rstrip_pairLine hvr)
      simp only [List.map_cons, List.cons_append]
      unfold read_header_lines_from
      rw [if_neg hlne, if_neg hnoend, ih (fun q hq => hps q (List.mem_cons_of_mem p hq)),
        hstrip]
  unfold gen2PhysLines
  unfold read_header_lines_from
  rw [if_neg (by decide), if_neg (by decide)]
  unfold read_header_lines_from
  rw [if_neg (by decide), if_neg (by decide)]
  rw [hmid g.pairs hp]
  rw [show rstrip (chars "\r\n") = [] from by decide]
  rw [show rstrip (chars "*** Burst Header ***" ++ HEADER_EOL) =
    chars "*** Burst Header ***" from by decide]

/-- Folding the content lines of well-formed, duplicate-free pairs into
the header dict recovers exactly those pairs, in order. -/
theorem store_fold_pairs : ∀ (ps : List (Str × Str)) (acc : List (Str × Str)),
    (∀ p ∈ ps, WFPair p) →
    (∀ p ∈ ps, ∀ q ∈ acc, q.1 ≠ p.1) →
    (ps.map (fun p => p.1)).Nodup →
    (ps.map pairLine).foldl (storeHeaderLine '=') acc = acc ++ ps := by
  intro ps
  induction ps with
  | nil =>
    intro acc _ _ _
    simp
  | cons p ps ih =>
    intro acc hwf hdisj hnd
    obtain ⟨hkne, hkl, hkr, hvl, hvr, hkeq, _, _, _, _, _, _, _⟩ :=
      hwf p (List.mem_cons_self p ps)
    have hsplit : splitFirst '=' (pairLine p) = some (p.1, p.2) :=
      splitFirst_key_val p.1 p.2 hkeq
    have hstep : storeHeaderLine '=' acc (pairLine p) = acc ++ [p] := by
      unfold storeHeaderLine
      rw [hsplit]
      dsimp only
      rw [if_pos hkne]
      have hps1 : pyStrip p.1 = p.1 := by
        unfold pyStrip
        rw [hkr, hkl]
      have hps2 : pyStrip p.2 = p.2 := by
        unfold pyStrip
        rw [hvr, hvl]
      rw [hps1, hps2,
        dictSet_fresh p.2 (fun q hq => hdisj p (List.mem_cons_self p ps) q hq)]
    rw [List.map_cons] at hnd
    have hnd2 := List.nodup_cons.mp hnd
    have hdisj2 : ∀ p' ∈ ps, ∀ q ∈ acc ++ [p], q.1 ≠ p'.1 := by
      intro p' hp' q hq
      rcases List.mem_append.mp hq with hin | hone
      · exact hdisj p' (List.mem_cons_of_mem p hp') q hin
      · have hqp : q = p := List.mem_singleton.mp hone
        subst hqp
        intro heq
        exact hnd2.1 (by rw [heq]; exact List.mem_map_of_mem (fun r => r.1) hp')
    simp only [List.map_cons, List.foldl_cons]
    rw [hstep, ih (acc ++ [p]) (fun q hq => hwf q (List.mem_cons_of_mem p hq)) hdisj2
      hnd2.2, List.append_assoc]
    rfl

/-- `store_header` over the decoded header lines of a well-formed
generation-2 burst recovers exactly its pairs: the empty first line and
both marker lines are dropped, each content line is split at its
delimiter. -/
theorem store_header_gen2 (ps : List (Str × Str)) (hwf : ∀ p ∈ ps, WFPair p)
    (hnd : (ps.map (fun p => p.1)).Nodup) :
    store_header '=' ([] :: chars "*** Burst Header ***" ::
      (ps.map pairLine ++ [HEADER_END_MARKER])) = ps := by
  unfold store_header
  simp only [List.foldl_cons]
  rw [storeHeaderLine_none (by decide) [],
    storeHeaderLine_none (l := chars "*** Burst Header ***") (by decide) []]
  rw [List.foldl_append]
  rw [store_fold_pairs ps [] hwf (by intro p _ q hq; cases hq) hnd]
  simp only [List.nil_append, List.foldl_cons, List.foldl_nil]
  exact storeHeaderLine_none (by decide) ps

/-! #### Array-side lemmas -/

/-- Concatenating the elements recovered by `np.frombuffer` recovers
the consumed prefix of the buffer. -/
theorem flatten_chunkN (c i : Nat) (l : List UInt8) :
    (chunkN c i l).flatten = l.take (c * i) := by
  induction c with
  | zero => simp [chunkN]
  | succ n ih =>
    have h1 : chunkN (n + 1) i l = chunkN n i l ++ [(l.drop (n * i)).take i] := by
      unfold chunkN
      rw [List.range_succ, List.map_append]
      rfl
    rw [h1, List.flatten_append, ih]
    simp only [List.flatten_cons, List.flatten_nil, List.append_nil]
    rw [Nat.succ_mul, List.take_add]

/-- Gathering `d` consecutive elements from offset `m` by index. -/
theorem map_getD_range {α : Type} (dflt : α) :
    ∀ (d : Nat) (l : List α) (m : Nat), m + d ≤ l.length →
      (List.range d).map (fun j => l.getD (m + j) dflt) = (l.drop m).take d := by
  intro d
  induction d with
  | zero =>
    intro l m h
    simp
  | succ n ih =>
    intro l m h
    rw [List.range_succ, List.map_append, ih l m (by omega)]
    simp only [List.map_cons, List.map_nil]
    rw [List.take_succ]
    congr 1
    have hx : (l.drop m)[n]? = some (l.getD (m + n) dflt) := by
      rw [List.getElem?_drop, List.getD_eq_getElem?_getD]
      rcases he : l[m + n]? with - | x
      · rw [List.getElem?_eq_none_iff] at he
        omega
      · simp
    rw [hx]
    rfl

/-- Gathering a full row-major `d0 × d1` grid by index recovers the
flat array. -/
theorem grid_getD {α : Type} (dflt : α) :
    ∀ (d0 d1 : Nat) (l : List α), d0 * d1 ≤ l.length →
      (List.range d0).flatMap (fun i =>
        (List.range d1).map (fun j => l.getD (i * d1 + j) dflt)) =
      l.take (d0 * d1) := by
  intro d0
  induction d0 with
  | zero =>
    intro d1 l h
    simp
  | succ n ih =>
    intro d1 l h
    have hle : n * d1 ≤ l.length := by
      have hstep : n * d1 ≤ (n + 1) * d1 := Nat.mul_le_mul_right d1 (Nat.le_succ n)
      omega
    rw [List.range_succ, List.flatMap_append, ih d1 l hle]
    simp only [List.flatMap_cons, List.flatMap_nil, List.append_nil]
    rw [map_getD_range dflt d1 l (n * d1) (by rw [← Nat.succ_mul]; exact h)]
    rw [Nat.succ_mul, List.take_add]

/-- The default full slice `l[0:n:1]` selects every index. -/
theorem pySliceIdxs_full (k : Int) (h : 0 ≤ k) :
    pySliceIdxs 0 k 1 k.toNat = List.range k.toNat := by
  unfold pySliceIdxs
  rw [List.filter_eq_self.mpr]
  intro i hi
  have hik : i < k.toNat := List.mem_range.mp hi
  have h1 : (0 : Int) ≤ (i : Int) := by omega
  have h2 : (i : Int) < k := by omega
  have h3 : ((i : Int) - 0) % 1 = 0 := by omega
  simp [h1, h2, h3]

/-- `toNat` of a product of nonnegative integers. -/
theorem toNat_mul_nonneg {a b : Int} (ha : 0 ≤ a) (hb : 0 ≤ b) :
    (a * b).toNat = a.toNat * b.toNat := by
  rcases Int.eq_ofNat_of_zero_le ha with ⟨m, rfl⟩
  rcases Int.eq_ofNat_of_zero_le hb with ⟨n, rfl⟩
  rw [← Int.natCast_mul, Int.toNat_natCast, Int.toNat_natCast, Int.toNat_natCast]

/-- `write_data` with no subsetting writes the whole row-major array:
the default ranges select every index of both axes. -/
theorem write_data_bytes_full (b : Burst) (b0 d1 : Int)
    (hshape : b.data_shape = [b0, d1]) (h0 : 0 ≤ b0) (h1 : 0 ≤ d1)
    (hlen : b.data.length = b0.toNat * d1.toNat) :
    write_data_bytes b none none = b.data.flatten := by
  unfold write_data_bytes
  dsimp only
  rw [hshape]
  rw [show ([b0, d1] : List Int).getD 0 0 = b0 from rfl]
  rw [show ([b0, d1] : List Int).getD 1 0 = d1 from rfl]
  rw [pySliceIdxs_full b0 h0, pySliceIdxs_full d1 h1]
  rw [grid_getD [] b0.toNat d1.toNat b.data (by omega)]
  rw [← hlen, List.take_length]

/-- `read_data` on a well-formed payload (followed by the rest of the
file) consumes exactly the declared bytes and yields the payload's
elements unreshaped. -/
theorem read_data_core_exact (payload rest : List UInt8) (shape : List Int) (dtype : Str)
    (hprod : 0 ≤ shape.prod)
    (hlen : payload.length = shape.prod.toNat * np_itemsize dtype) (forgive : Bool) :
    read_data_core (payload ++ rest) shape dtype forgive =
      .ok (chunkN shape.prod.toNat (np_itemsize dtype) payload, false) := by
  unfold read_data_core
  dsimp only
  have htake : (payload ++ rest).take (shape.prod.toNat * np_itemsize dtype) = payload := by
    rw [← hlen, List.take_left]
  rw [htake]
  rw [if_neg (by omega)]
  have hclen : (chunkN shape.prod.toNat (np_itemsize dtype) payload).length =
      shape.prod.toNat := by
    rw [chunkN, List.length_map, List.length_range]
  have hsome : np_reshape (chunkN shape.prod.toNat (np_itemsize dtype) payload) shape =
      some (chunkN shape.prod.toNat (np_itemsize dtype) payload) := by
    unfold np_reshape
    rw [if_pos]
    rw [hclen]
    omega
  unfold reshape_data
  rw [hsome]

/-- `define_data_shape` with the default policy when the optional
dimension key is absent. -/
theorem define_data_shape_noopt (header : List (Str × Str)) (s0 s1 sa : Str)
    (d0 d1 a : Int)
    (h0 : dictGet header (chars "NSubBursts") = some s0) (hp0 : parsePyInt s0 = some d0)
    (h1 : dictGet header (chars "N_ADC_SAMPLES") = some s1) (hp1 : parsePyInt s1 = some d1)
    (ha : dictGet header DATA_TYPE_KEY = some sa) (hpa : parsePyInt sa = some a)
    (hopt : dictGet header (chars "nAttenuators") = none) :
    define_data_shape initTokens header (chars "unity") =
      .ok ([chars "NSubBursts", chars "N_ADC_SAMPLES"],
           [if a > 0 then 1 else d0, d1], []) := by
  have eUn : pyLower (chars "unity") = chars "unity" := by decide
  rw [define_data_shape_eq header s0 s1 sa d0 d1 a _ h0 hp0 h1 hp1 ha hpa
    (Or.inr (Or.inl eUn)), eUn]
  simp [applyOptionalDim, hopt]

/-- `define_data_type` for an in-range mode value. -/
theorem define_data_type_mode (header : List (Str × Str)) (sa : Str) (a : Int)
    (ha : dictGet header DATA_TYPE_KEY = some sa) (hpa : parsePyInt sa = some a)
    (hr : a = 0 ∨ a = 1 ∨ a = 2) :
    define_data_type header = .ok (data_types.getD a.toNat []) := by
  unfold define_data_type
  rw [ha]
  dsimp only
  rw [hpa]
  dsimp only
  rcases hr with h | h | h <;> subst h <;> decide

/-- Decoding a well-formed generation-2 burst from the stream: the
dialect stays generation 2, the header dict is exactly the burst's
pairs, the shape and element type follow the mode, and the data is the
payload chunked into elements. -/
theorem read_burst_gen2 (g : Gen2Burst) (s0 s1 sa : Str) (d0 d1 a : Int)
    (hwf : WF g s0 s1 sa d0 d1 a) (rest : List UInt8) (forgive : Bool) :
    read_burst_model initTokens (gen2PhysLines g) (g.payload ++ rest) forgive =
      .ok (initTokens, Burst.mk 0
        ([] :: chars "*** Burst Header ***" :: (g.pairs.map pairLine ++ [HEADER_END_MARKER]))
        g.pairs
        [chars "NSubBursts", chars "N_ADC_SAMPLES"]
        [if a > 0 then 1 else d0, d1]
        (data_types.getD a.toNat [])
        (chunkN ((if a > 0 then 1 else d0) * d1).toNat
          (np_itemsize (data_types.getD a.toNat [])) g.payload)) := by
  obtain ⟨hp, hnd, hnh, hopt, h0, hp0, hd0, h1, hp1, hd1, ha, hpa, hr, hlen⟩ := hwf
  have hdet : determine_file_format_version ([] :: chars "*** Burst Header ***" ::
      (g.pairs.map pairLine ++ [HEADER_END_MARKER])) initTokens = initTokens := by
    apply determine_no_gen1
    intro l hl
    rcases List.mem_cons.mp hl with he | h2
    · subst he
      decide
    rcases List.mem_cons.mp h2 with he | h3
    · subst he
      decide
    rcases List.mem_append.mp h3 with h4 | h4
    · rcases List.mem_map.mp h4 with ⟨p, hpmem, he⟩
      obtain ⟨_, _, _, _, _, _, _, _, _, _, _, hg1, _⟩ := hp p hpmem
      rw [← he]
      exact hg1
    · rw [List.mem_singleton.mp h4]
      decide
  have hstore : store_header '=' ([] :: chars "*** Burst Header ***" ::
      (g.pairs.map pairLine ++ [HEADER_END_MARKER])) = g.pairs :=
    store_header_gen2 g.pairs hp hnd
  have hshape := define_data_shape_noopt g.pairs s0 s1 sa d0 d1 a h0 hp0 h1 hp1 ha hpa hopt
  have htype := define_data_type_mode g.pairs sa a ha hpa hr
  have hprodeq : ([if a > 0 then 1 else d0, d1] : List Int).prod =
      (if a > 0 then 1 else d0) * d1 := by
    simp
  have hb0 : (0 : Int) ≤ (if a > 0 then 1 else d0) := by
    split <;> omega
  have hprodnn : 0 ≤ ([if a > 0 then 1 else d0, d1] : List Int).prod := by
    rw [hprodeq]
    exact mul_nonneg hb0 hd1
  have hread := read_data_core_exact g.payload rest [if a > 0 then 1 else d0, d1]
    (data_types.getD a.toNat []) hprodnn (by rw [hprodeq]; exact hlen) forgive
  unfold read_burst_model read_header_model
  rw [read_header_lines_gen2 g hp]
  dsimp only
  unfold configure_from_header
  dsimp only
  rw [hdet]
  rw [show initTokens.header_line_delim = '=' from rfl]
  rw [hstore, hshape]
  dsimp only
  rw [htype]
  dsimp only
  rw [if_neg (by decide)]
  rw [hread]
  dsimp only
  rw [hprodeq]
  rfl

/-- Deleting the provenance attribute recovers exactly the original
header pairs, whether or not a `history` attribute was present. -/
theorem delHistory_eq (ps : List (Str × Str))
    (hnh : (chars "history") ∉ ps.map (fun p => p.1)) (hist : Option Str) :
    pyDictDelHistory (ps ++ (match hist with
      | some h => [(chars "history", h)] | none => [])) = ps := by
  have hnot : ∀ p ∈ ps, ¬ (p.1 = chars "history") := by
    intro p hp heq
    exact hnh (by rw [← heq]; exact List.mem_map_of_mem (fun r => r.1) hp)
  cases hist with
  | none =>
    simp only [List.append_nil]
    unfold pyDictDelHistory
    rw [if_neg]
    simp only [List.any_eq_true, not_exists, not_and, decide_eq_true_eq]
    exact hnot
  | some h =>
    unfold pyDictDelHistory
    rw [if_pos]
    · rw [List.eraseP_append_right _ (by
        intro b hb
        simp only [decide_eq_true_eq]
        exact hnot b hb)]
      simp [List.eraseP_cons]
    · apply List.any_eq_true.mpr
      exact ⟨(chars "history", h),
        List.mem_append_right _ (List.mem_singleton.mpr rfl), by simp⟩

/-- `store_header` over reconstructed header lines (start marker,
content lines, end marker) recovers the pairs. -/
theorem store_header_reconstructed (ps : List (Str × Str)) (hwf : ∀ p ∈ ps, WFPair p)
    (hnd : (ps.map (fun p => p.1)).Nodup) :
    store_header '=' (HEADER_START_MARKER :: (ps.map pairLine ++ [HEADER_END_MARKER])) =
      ps := by
  unfold store_header
  simp only [List.foldl_cons]
  rw [storeHeaderLine_none (l := HEADER_START_MARKER) (by decide) []]
  rw [List.foldl_append]
  rw [store_fold_pairs ps [] hwf (by intro p _ q hq; cases hq) hnd]
  simp only [List.nil_append, List.foldl_cons, List.foldl_nil]
  exact storeHeaderLine_none (by decide) ps

/-- Reading a well-formed generation-2 burst back from its container
group (with an optional synthetic `history` attribute): the history
attribute is dropped, the dialect re-resolves to generation 2 from the
attribute keys, canonical header lines are reconstructed, and shape and
type are re-derived; the variable data is carried over unchanged. -/
theorem nc_object_to_burst_gen2 (g : Gen2Burst) (s0 s1 sa : Str) (d0 d1 a : Int)
    (hwf : WF g s0 s1 sa d0 d1 a) (hist : Option Str)
    (K : List Str) (S : List Int) (T : Str) (data : List (List UInt8)) :
    nc_object_to_burst initTokens
      (NcGroup.mk (g.pairs ++ (match hist with
        | some h => [(chars "history", h)] | none => [])) K S T data) =
      .ok (initTokens, Burst.mk 0
        (HEADER_START_MARKER :: (g.pairs.map pairLine ++ [HEADER_END_MARKER]))
        g.pairs
        [chars "NSubBursts", chars "N_ADC_SAMPLES"]
        [if a > 0 then 1 else d0, d1]
        (data_types.getD a.toNat [])
        data) := by
  obtain ⟨hp, hnd, hnh, hopt, h0, hp0, hd0, h1, hp1, hd1, ha, hpa, hr, hlen⟩ := hwf
  have hdel := delHistory_eq g.pairs hnh hist
  have hdetk : determine_file_format_version (g.pairs.map (fun p => p.1)) initTokens =
      initTokens := by
    apply determine_no_gen1
    intro l hl
    rcases List.mem_map.mp hl with ⟨p, hpmem, he⟩
    obtain ⟨_, _, _, _, _, _, _, _, _, _, _, _, hg1k⟩ := hp p hpmem
    rw [← he]
    exact hg1k
  have hfmt : ∀ p : Str × Str, format_header_line initTokens p.1 p.2 = pairLine p := by
    intro p
    unfold format_header_line pairLine
    rw [show initTokens.header_line_delim = '=' from rfl]
    rw [List.append_assoc]
    rfl
  have hrec : reconstruct_header_lines initTokens g.pairs =
      HEADER_START_MARKER :: (g.pairs.map pairLine ++ [HEADER_END_MARKER]) := by
    unfold reconstruct_header_lines
    rw [List.map_congr_left (fun p _ => hfmt p)]
    rfl
  have hdetl : determine_file_format_version
      (HEADER_START_MARKER :: (g.pairs.map pairLine ++ [HEADER_END_MARKER])) initTokens =
      initTokens := by
    apply determine_no_gen1
    intro l hl
    rcases List.mem_cons.mp hl with he | h2
    · subst he
      decide
    rcases List.mem_append.mp h2 with h3 | h3
    · rcases List.mem_map.mp h3 with ⟨p, hpmem, he⟩
      obtain ⟨_, _, _, _, _, _, _, _, _, _, _, hg1, _⟩ := hp p hpmem
      rw [← he]
      exact hg1
    · rw [List.mem_singleton.mp h3]
      decide
  have hstore : store_header '=' (HEADER_START_MARKER ::
      (g.pairs.map pairLine ++ [HEADER_END_MARKER])) = g.pairs :=
    store_header_reconstructed g.pairs hp hnd
  have hshape := define_data_shape_noopt g.pairs s0 s1 sa d0 d1 a h0 hp0 h1 hp1 ha hpa hopt
  have htype := define_data_type_mode g.pairs sa a ha hpa hr
  unfold nc_object_to_burst
  dsimp only
  rw [hdel, hdetk, hrec]
  unfold configure_from_header
  dsimp only
  rw [hdetl]
  rw [show initTokens.header_line_delim = '=' from rfl]
  rw [hstore, hshape]
  dsimp only
  rw [htype]

/-- The CRLF-terminated reconstructed header lines spell out exactly
the original generation-2 header text. -/
theorem header_text_eq (g : Gen2Burst) :
    ((HEADER_START_MARKER :: (g.pairs.map pairLine ++ [HEADER_END_MARKER])).map
      (fun l => l ++ HEADER_EOL)).flatten = gen2HeaderText g := by
  unfold gen2HeaderText gen2PhysLines
  simp only [List.map_cons, List.map_append, List.map_map, List.flatten_cons,
    List.flatten_append, List.map_nil, List.flatten_nil, List.append_nil,
    Function.comp]
  rw [show HEADER_START_MARKER ++ HEADER_EOL =
    chars "\r\n" ++ (chars "*** Burst Header ***" ++ HEADER_EOL) from by decide]
  simp only [List.append_assoc]
  rfl

/-- Re-encoding a recovered generation-2 burst with no subsetting
reproduces the original bytes: the header lines write out as the
original header text and the full-array write emits the original
payload. -/
theorem burst_to_dat_bytes_gen2 (g : Gen2Burst) (s0 s1 sa : Str) (d0 d1 a : Int)
    (hwf : WF g s0 s1 sa d0 d1 a) :
    burst_to_dat_bytes initTokens (Burst.mk 0
      (HEADER_START_MARKER :: (g.pairs.map pairLine ++ [HEADER_END_MARKER]))
      g.pairs
      [chars "NSubBursts", chars "N_ADC_SAMPLES"]
      [if a > 0 then 1 else d0, d1]
      (data_types.getD a.toNat [])
      (chunkN ((if a > 0 then 1 else d0) * d1).toNat
        (np_itemsize (data_types.getD a.toNat [])) g.payload)) none none = gen2Bytes g := by
  obtain ⟨hp, hnd, hnh, hopt, h0, hp0, hd0, h1, hp1, hd1, ha, hpa, hr, hlen⟩ := hwf
  have hb0 : (0 : Int) ≤ (if a > 0 then 1 else d0) := by
    split <;> omega
  have hwl : write_header_lines initTokens
      (HEADER_START_MARKER :: (g.pairs.map pairLine ++ [HEADER_END_MARKER])) none none =
      (HEADER_START_MARKER :: (g.pairs.map pairLine ++ [HEADER_END_MARKER])).map
        (fun l => l ++ HEADER_EOL) := rfl
  have hchlen : (chunkN ((if a > 0 then 1 else d0) * d1).toNat
      (np_itemsize (data_types.getD a.toNat [])) g.payload).length =
      (if a > 0 then 1 else d0).toNat * d1.toNat := by
    rw [chunkN, List.length_map, List.length_range, toNat_mul_nonneg hb0 hd1]
  have hwd := write_data_bytes_full (Burst.mk 0
    (HEADER_START_MARKER :: (g.pairs.map pairLine ++ [HEADER_END_MARKER]))
    g.pairs
    [chars "NSubBursts", chars "N_ADC_SAMPLES"]
    [if a > 0 then 1 else d0, d1]
    (data_types.getD a.toNat [])
    (chunkN ((if a > 0 then 1 else d0) * d1).toNat
      (np_itemsize (data_types.getD a.toNat [])) g.payload))
    (if a > 0 then 1 else d0) d1 rfl hb0 hd1 hchlen
  unfold burst_to_dat_bytes
  rw [hwl, header_text_eq g, hwd]
  dsimp only
  rw [flatten_chunkN]
  rw [show ((if a > 0 then 1 else d0) * d1).toNat *
    np_itemsize (data_types.getD a.toNat []) = g.payload.length from hlen.symm]
  rw [List.take_length]
  rfl

/-- The container round trip on one well-formed generation-2 burst
reproduces its bytes exactly (with the shared tokens left at the
generation-2 defaults), for any trailing stream content, any synthetic
history attribute, and either forgive setting. -/
theorem container_roundtrip_single (g : Gen2Burst) (s0 s1 sa : Str) (d0 d1 a : Int)
    (hwf : WF g s0 s1 sa d0 d1 a) (rest : List UInt8) (hist : Option Str) (forgive : Bool) :
    container_roundtrip initTokens (gen2PhysLines g) (g.payload ++ rest) hist forgive =
      .ok (initTokens, gen2Bytes g) := by
  unfold container_roundtrip
  rw [read_burst_gen2 g s0 s1 sa d0 d1 a hwf rest forgive]
  dsimp only
  unfold burst_to_nc_object
  dsimp only
  rw [nc_object_to_burst_gen2 g s0 s1 sa d0 d1 a hwf hist
    [chars "NSubBursts", chars "N_ADC_SAMPLES"] [if a > 0 then 1 else d0, d1]
    (data_types.getD a.toNat [])
    (chunkN ((if a > 0 then 1 else d0) * d1).toNat
      (np_itemsize (data_types.getD a.toNat [])) g.payload)]
  dsimp only
  rw [burst_to_dat_bytes_gen2 g s0 s1 sa d0 d1 a hwf]

/-- C2: for every generation-2 native file (a concatenation of
well-formed generation-2 bursts), the round trip
decode(native) → to_container → from_container → re-encode(native)
reproduces the original file byte-for-byte, with any history/provenance
attribute discarded on read-back rather than treated as a header
field. -/
theorem C2_container_roundtrip_gen2 : ∀ (gs : List Gen2Burst),
    (∀ g ∈ gs, ∃ s0 s1 sa d0 d1 a, WF g s0 s1 sa d0 d1 a) →
    ∀ (hist : Option Str) (forgive : Bool),
      file_container_roundtrip initTokens hist forgive gs =
        .ok (initTokens, (gs.map gen2Bytes).flatten) := by
  intro gs
  induction gs with
  | nil =>
    intro _ hist forgive
    rfl
  | cons g gs ih =>
    intro h hist forgive
    rcases h g (List.mem_cons_self g gs) with ⟨s0, s1, sa, d0, d1, a, hwf⟩
    unfold file_container_roundtrip
    rw [container_roundtrip_single g s0 s1 sa d0 d1 a hwf ((gs.map gen2Bytes).flatten)
      hist forgive]
    dsimp only
    rw [ih (fun g' hg' => h g' (List.mem_cons_of_mem g hg')) hist forgive]
    dsimp only
    rw [List.map_cons, List.flatten_cons]

/-- C2 witness: a one-burst generation-2 file round-trips through the
container byte-for-byte, with a synthetic history attribute
discarded. -/
theorem C2_container_roundtrip_gen2_witness :
    file_container_roundtrip initTokens (some (chars "apres_to_nc example.dat")) true
      [⟨[(chars "NSubBursts", chars "2"), (chars "N_ADC_SAMPLES", chars "1"),
         (chars "Average", chars "0")], [9, 8, 7, 6]⟩] =
    .ok (initTokens,
      (([⟨[(chars "NSubBursts", chars "2"), (chars "N_ADC_SAMPLES", chars "1"),
         (chars "Average", chars "0")], [9, 8, 7, 6]⟩] : List Gen2Burst).map
        gen2Bytes).flatten) := by
  apply C2_container_roundtrip_gen2
  intro g hg
  rw [List.mem_singleton.mp hg]
  exact ⟨chars "2", chars "1", chars "0", 2, 1, 0, by decide⟩
